import Mathlib

/-!
Verification of the hipBLAS client test drivers
(`testing_axpy_batched.hpp`, `testing_copy_strided_batched.hpp`,
`testing_geam_batched.hpp`, `testing_rotmg.hpp`, `testing_tpsv_batched.hpp`).

Each C++ test driver is a straight-line sequence of external calls
(buffer allocations, HIP memory transfers, hipBLAS API calls, CPU
reference computations, comparisons, timing) guarded by the
`CHECK_HIP_ERROR` / `CHECK_HIPBLAS_ERROR` macros that propagate a
non-success status out of the test function.  We embed every driver as
a computation in a small state monad `TestM` that threads
  * an environment assigning a status to every external call,
  * a trace of the externally visible events, in program order.
The claims about the drivers become statements about the produced
trace and the returned status.
-/

/-- Status codes returned by hipBLAS API calls (`hipblasStatus_t`). -/
inductive HStatus where
  | success
  | invalidValue
  | notInitialized
  | allocFailed
  | internalError
  | executionFailed
  deriving DecidableEq, Repr

/-- Status codes returned by HIP runtime calls (`hipError_t`); any
nonzero code is a failure, the numeric payload is otherwise opaque to
the drivers. -/
inductive HipErr where
  | success
  | err (code : Nat)
  deriving DecidableEq, Repr

/-- The two pointer modes of the hipBLAS handle. -/
inductive PMode where
  | host
  | device
  deriving DecidableEq, Repr

/-- Externally visible events performed by a test driver, in program
order.  Allocation events carry the constructor arguments of the
host/device container being allocated; call events carry the status
the external call returned.  `libCall` is an invocation of the routine
under test: `mode` is the pointer mode explicitly selected by a
preceding `hipblasSetPointerMode` call (`none` when the driver never
selects one), `nullData` records the degenerate invocation with null
data pointers.  `unitCheck`/`normCheck` are the tolerance comparisons
of a GPU result against the CPU reference (`which` tells which of the
two pointer-mode results is being compared, `none` for drivers that
produce a single result); the `Bool` on `unitCheck` is the comparison
outcome supplied by the environment. -/
inductive Event where
  | allocHost (dims : List Int)
  | allocDevice (dims : List Int)
  | memcheck (e : HipErr)
  | transfer (e : HipErr)
  | initVector
  | hostCopy
  | setPointerMode (m : PMode) (s : HStatus)
  | getStream (s : HStatus)
  | libCall (mode : Option PMode) (nullData : Bool) (s : HStatus)
  | cpuReference (batches : Nat)
  | unitCheck (which : Option PMode) (ok : Bool)
  | normCheck (which : Option PMode)
  | expectStatus (actual expected : HStatus)
  | timestamp (k : Nat)
  | logArgs (t : Option ℚ)
  deriving DecidableEq, Repr

/-- A non-success status propagated out of a test function by one of
the checking macros. -/
inductive Failure where
  | hipblas (s : HStatus)
  | hip (e : HipErr)
  deriving DecidableEq, Repr

/-- The environment: outcome of the n-th hipBLAS API call, the n-th
HIP runtime call, the n-th `get_time_us_sync` call and the n-th unit
comparison, counting from the start of the test function. -/
structure Env where
  gpu : Nat → HStatus
  hip : Nat → HipErr
  time : Nat → ℚ
  cmp : Nat → Bool

/-- The state threaded through a run of a test driver. -/
structure TestSt where
  env : Env
  gpuIdx : Nat
  hipIdx : Nat
  timeIdx : Nat
  cmpIdx : Nat
  trace : List Event
  gpuTime : Option ℚ

/-- The test-driver monad: state plus early exit with a `Failure`. -/
def TestM (α : Type) : Type := TestSt → Except Failure α × TestSt

/-- Monadic return. -/
def TestM.pure (a : α) : TestM α := fun s => (Except.ok a, s)

/-- Monadic bind: a `Failure` aborts the rest of the computation. -/
def TestM.bind (m : TestM α) (k : α → TestM β) : TestM β := fun s =>
  match m s with
  | (Except.ok a, s') => k a s'
  | (Except.error f, s') => (Except.error f, s')

@[simp] theorem TestM.pure_apply (a : α) (s : TestSt) :
    TestM.pure a s = (Except.ok a, s) := rfl

@[simp] theorem TestM.bind_apply (m : TestM α) (k : α → TestM β) (s : TestSt) :
    TestM.bind m k s =
      match m s with
      | (Except.ok a, s') => k a s'
      | (Except.error f, s') => (Except.error f, s') := rfl

/-- Record a list of purely local events (allocations, host-side
initialisation and copies) on the trace. -/
def emits (l : List Event) : TestM Unit := fun s =>
  (Except.ok (), { s with trace := s.trace ++ l })

@[simp] theorem emits_apply (l : List Event) (s : TestSt) :
    emits l s = (Except.ok (), { s with trace := s.trace ++ l }) := rfl

/-- Perform a hipBLAS API call: consume the next status from the
environment and record the event built from it. -/
def hipblasCall (mk : HStatus → Event) : TestM HStatus := fun s =>
  (Except.ok (s.env.gpu s.gpuIdx),
   { s with gpuIdx := s.gpuIdx + 1, trace := s.trace ++ [mk (s.env.gpu s.gpuIdx)] })

@[simp] theorem hipblasCall_apply (mk : HStatus → Event) (s : TestSt) :
    hipblasCall mk s =
      (Except.ok (s.env.gpu s.gpuIdx),
       { s with gpuIdx := s.gpuIdx + 1,
                trace := s.trace ++ [mk (s.env.gpu s.gpuIdx)] }) := rfl

/-- Perform a HIP runtime call (memory transfer or `memcheck`). -/
def hipCall (mk : HipErr → Event) : TestM HipErr := fun s =>
  (Except.ok (s.env.hip s.hipIdx),
   { s with hipIdx := s.hipIdx + 1, trace := s.trace ++ [mk (s.env.hip s.hipIdx)] })

@[simp] theorem hipCall_apply (mk : HipErr → Event) (s : TestSt) :
    hipCall mk s =
      (Except.ok (s.env.hip s.hipIdx),
       { s with hipIdx := s.hipIdx + 1,
                trace := s.trace ++ [mk (s.env.hip s.hipIdx)] }) := rfl

/-- Modelled from the spec: the `CHECK_HIPBLAS_ERROR` macro of the
shared test-support library (not among the shown sources) propagates a
non-success `hipblasStatus_t` out of the test function. -/
def CHECK_HIPBLAS_ERROR (mk : HStatus → Event) : TestM Unit :=
  TestM.bind (hipblasCall mk) (fun st =>
    if st = HStatus.success then TestM.pure ()
    else fun s => (Except.error (Failure.hipblas st), s))

/-- Modelled from the spec: the `CHECK_HIP_ERROR` macro of the shared
test-support library (not among the shown sources) propagates a
non-success `hipError_t` out of the test function. -/
def CHECK_HIP_ERROR (mk : HipErr → Event) : TestM Unit :=
  TestM.bind (hipCall mk) (fun e =>
    if e = HipErr.success then TestM.pure ()
    else fun s => (Except.error (Failure.hip e), s))

/-- Perform a tolerance comparison whose boolean outcome is supplied
by the environment (`unit_check_general` / `near_check_general`). -/
def cmpCall (mk : Bool → Event) : TestM Unit := fun s =>
  (Except.ok (),
   { s with cmpIdx := s.cmpIdx + 1, trace := s.trace ++ [mk (s.env.cmp s.cmpIdx)] })

@[simp] theorem cmpCall_apply (mk : Bool → Event) (s : TestSt) :
    cmpCall mk s =
      (Except.ok (),
       { s with cmpIdx := s.cmpIdx + 1,
                trace := s.trace ++ [mk (s.env.cmp s.cmpIdx)] }) := rfl

/-- A `get_time_us_sync` call: consume the next timestamp. -/
def getTimeSync : TestM ℚ := fun s =>
  (Except.ok (s.env.time s.timeIdx),
   { s with timeIdx := s.timeIdx + 1, trace := s.trace ++ [Event.timestamp s.timeIdx] })

@[simp] theorem getTimeSync_apply (s : TestSt) :
    getTimeSync s =
      (Except.ok (s.env.time s.timeIdx),
       { s with timeIdx := s.timeIdx + 1,
                trace := s.trace ++ [Event.timestamp s.timeIdx] }) := rfl

/-- The `gpu_time_used = get_time_us_sync(stream)` assignment inside
the timing loop. -/
def startGpuTime : TestM Unit :=
  TestM.bind getTimeSync (fun t => fun s => (Except.ok (), { s with gpuTime := some t }))

/-- The `gpu_time_used = get_time_us_sync(stream) - gpu_time_used`
assignment after the timing loop; if the start timestamp was never
taken the C++ reads an uninitialised variable, modelled by `none`. -/
def finishGpuTime : TestM Unit :=
  TestM.bind getTimeSync (fun t => fun s =>
    (Except.ok (), { s with gpuTime := Option.map (fun t0 => t - t0) s.gpuTime }))

/-- The `log_args` call reporting the measured GPU time. -/
def emitLog : TestM Unit := fun s =>
  (Except.ok (), { s with trace := s.trace ++ [Event.logArgs s.gpuTime] })

@[simp] theorem emitLog_apply (s : TestSt) :
    emitLog s = (Except.ok (), { s with trace := s.trace ++ [Event.logArgs s.gpuTime] }) := rfl

/-- The benchmarking loop body shared verbatim by all five drivers:
`for(iter = 0; iter < runs; iter++) { if(iter == cold_iters)
gpu_time_used = get_time_us_sync(stream); CHECK_HIPBLAS_ERROR(fn(...)); }`.
The first argument is the remaining iteration count, the second the
current value of `iter`. -/
def timedLoopAux (callEv : HStatus → Event) (cold : Int) : Nat → Nat → TestM Unit
  | 0, _ => TestM.pure ()
  | n + 1, iter =>
      TestM.bind (if (iter : Int) = cold then startGpuTime else TestM.pure ())
        (fun _ => TestM.bind (CHECK_HIPBLAS_ERROR callEv)
          (fun _ => timedLoopAux callEv cold n (iter + 1)))

/-- The whole timing block shared by the drivers: the loop with
`runs = cold_iters + iters`, the final `get_time_us_sync` and the
`log_args` report. -/
def timingTail (callEv : HStatus → Event) (cold iters : Int) : TestM Unit :=
  TestM.bind (timedLoopAux callEv cold (cold + iters).toNat 0)
    (fun _ => TestM.bind finishGpuTime (fun _ => emitLog))

/-- The argument record (`Arguments`) fields consumed by the five
drivers.  C `int` fields are `Int`, the `double` scale and the scalars
are `ℚ`, the flag characters are `Char`. -/
structure Arguments where
  M : Int
  N : Int
  incx : Int
  incy : Int
  lda : Int
  ldb : Int
  ldc : Int
  batch_count : Int
  cold_iters : Int
  iters : Int
  stride_scale : ℚ
  alpha : ℚ
  beta : ℚ
  transA : Char
  transB : Char
  uplo : Char
  diag : Char
  fortran : Bool
  unit_check : Bool
  norm_check : Bool
  timing : Bool

/-! ### testing_axpy_batched -/

/-- The main body of `testing_axpy_batched` (reached when
`N > 0 && batch_count > 0`): allocate the five host and four device
batch vectors, memcheck the device ones, initialise and mirror the
host data, upload it, then optionally run the correctness block and
the timing block. -/
def axpy_main (arg : Arguments) : TestM HStatus :=
  TestM.bind (emits
    [Event.allocHost [arg.N, arg.incx, arg.batch_count],
     Event.allocHost [arg.N, arg.incy, arg.batch_count],
     Event.allocHost [arg.N, arg.incy, arg.batch_count],
     Event.allocHost [arg.N, arg.incx, arg.batch_count],
     Event.allocHost [arg.N, arg.incy, arg.batch_count],
     Event.allocDevice [arg.N, arg.incx, arg.batch_count],
     Event.allocDevice [arg.N, arg.incy, arg.batch_count],
     Event.allocDevice [arg.N, arg.incy, arg.batch_count],
     Event.allocDevice [1]]) (fun _ =>
  TestM.bind (CHECK_HIP_ERROR Event.memcheck) (fun _ =>
  TestM.bind (CHECK_HIP_ERROR Event.memcheck) (fun _ =>
  TestM.bind (CHECK_HIP_ERROR Event.memcheck) (fun _ =>
  TestM.bind (emits
    [Event.initVector, Event.initVector,
     Event.hostCopy, Event.hostCopy, Event.hostCopy]) (fun _ =>
  TestM.bind (CHECK_HIP_ERROR Event.transfer) (fun _ =>
  TestM.bind (CHECK_HIP_ERROR Event.transfer) (fun _ =>
  TestM.bind (CHECK_HIP_ERROR Event.transfer) (fun _ =>
  TestM.bind (CHECK_HIP_ERROR Event.transfer) (fun _ =>
  TestM.bind (if (arg.unit_check || arg.norm_check) = true then
    TestM.bind (CHECK_HIPBLAS_ERROR (Event.setPointerMode PMode.device)) (fun _ =>
    TestM.bind (CHECK_HIPBLAS_ERROR (Event.libCall (some PMode.device) false)) (fun _ =>
    TestM.bind (CHECK_HIPBLAS_ERROR (Event.setPointerMode PMode.host)) (fun _ =>
    TestM.bind (CHECK_HIPBLAS_ERROR (Event.libCall (some PMode.host) false)) (fun _ =>
    TestM.bind (CHECK_HIP_ERROR Event.transfer) (fun _ =>
    TestM.bind (CHECK_HIP_ERROR Event.transfer) (fun _ =>
    TestM.bind (emits [Event.cpuReference arg.batch_count.toNat]) (fun _ =>
    TestM.bind (if arg.unit_check = true then
        TestM.bind (cmpCall (Event.unitCheck (some PMode.host)))
          (fun _ => cmpCall (Event.unitCheck (some PMode.device)))
      else TestM.pure ()) (fun _ =>
    if arg.norm_check = true then
      emits [Event.normCheck (some PMode.host), Event.normCheck (some PMode.device)]
    else TestM.pure ()))))))))
  else TestM.pure ()) (fun _ =>
  TestM.bind (if arg.timing = true then
    TestM.bind (CHECK_HIPBLAS_ERROR Event.getStream) (fun _ =>
    TestM.bind (CHECK_HIPBLAS_ERROR (Event.setPointerMode PMode.device)) (fun _ =>
    timingTail (Event.libCall (some PMode.device) false) arg.cold_iters arg.iters))
  else TestM.pure ()) (fun _ =>
  TestM.pure HStatus.success)))))))))))

/-- `testing_axpy_batched`: quick return (calling the routine with
null data pointers) when `N <= 0 || batch_count <= 0`, otherwise the
main body. -/
def testing_axpy_batched (arg : Arguments) : TestM HStatus :=
  if arg.N ≤ 0 ∨ arg.batch_count ≤ 0 then
    TestM.bind (CHECK_HIPBLAS_ERROR (Event.libCall none true))
      (fun _ => TestM.pure HStatus.success)
  else
    axpy_main arg

/-- Initial state for a run of a test driver. -/
def initSt (env : Env) : TestSt :=
  { env := env, gpuIdx := 0, hipIdx := 0, timeIdx := 0, cmpIdx := 0,
    trace := [], gpuTime := none }

/-- Run a test driver: the propagated-or-returned status together with
the event trace. -/
def runTest (m : TestM HStatus) (env : Env) : Except Failure HStatus × List Event :=
  ((m (initSt env)).1, (m (initSt env)).2.trace)

/-- Every external call in the environment succeeds (the comparison
outcomes `cmp` stay unconstrained). -/
def AllSuccess (env : Env) : Prop :=
  (∀ n, env.gpu n = HStatus.success) ∧ (∀ n, env.hip n = HipErr.success)

/-! ### testing_copy_strided_batched -/

/-- The `incx >= 0 ? incx : -incx` computation of the drivers. -/
def cAbs (i : Int) : Int := if 0 ≤ i then i else -i

/-- The stride computation of `testing_copy_strided_batched`:
`hipblasStride stridex = size_t(N) * abs_incx * stride_scale` — the
integer product is scaled by the `double` `stride_scale` and truncated
back to an integer (for the nonnegative values used by the tests,
truncation is `Rat.floor`). -/
def copy_stride (N inc : Int) (scale : ℚ) : Int :=
  ((((N * cAbs inc : Int) : ℚ) * scale)).floor

/-- The `size_t sizeX = stridex * batch_count; if(!sizeX) sizeX = 1;`
computation of `testing_copy_strided_batched`. -/
def copy_size (stride batch_count : Int) : Int :=
  if stride * batch_count = 0 then 1 else stride * batch_count

/-- The main body of `testing_copy_strided_batched` (reached when
`N > 0 && batch_count > 0`): two host and two device buffers of the
forced sizes, initialisation, two uploads, then optionally the
correctness block (a single invocation of the routine, no pointer
mode is ever selected) and the timing block. -/
def copy_main (arg : Arguments) : TestM HStatus :=
  TestM.bind (emits
    [Event.allocHost [copy_size (copy_stride arg.N arg.incx arg.stride_scale) arg.batch_count],
     Event.allocHost [copy_size (copy_stride arg.N arg.incy arg.stride_scale) arg.batch_count],
     Event.allocHost [copy_size (copy_stride arg.N arg.incx arg.stride_scale) arg.batch_count],
     Event.allocHost [copy_size (copy_stride arg.N arg.incy arg.stride_scale) arg.batch_count],
     Event.allocDevice [copy_size (copy_stride arg.N arg.incx arg.stride_scale) arg.batch_count],
     Event.allocDevice [copy_size (copy_stride arg.N arg.incy arg.stride_scale) arg.batch_count],
     Event.initVector, Event.initVector, Event.hostCopy, Event.hostCopy]) (fun _ =>
  TestM.bind (CHECK_HIP_ERROR Event.transfer) (fun _ =>
  TestM.bind (CHECK_HIP_ERROR Event.transfer) (fun _ =>
  TestM.bind (if (arg.unit_check || arg.norm_check) = true then
    TestM.bind (CHECK_HIPBLAS_ERROR (Event.libCall none false)) (fun _ =>
    TestM.bind (CHECK_HIP_ERROR Event.transfer) (fun _ =>
    TestM.bind (CHECK_HIP_ERROR Event.transfer) (fun _ =>
    TestM.bind (emits [Event.cpuReference arg.batch_count.toNat]) (fun _ =>
    TestM.bind (if arg.unit_check = true then cmpCall (Event.unitCheck none)
      else TestM.pure ()) (fun _ =>
    if arg.norm_check = true then emits [Event.normCheck none] else TestM.pure ())))))
  else TestM.pure ()) (fun _ =>
  TestM.bind (if arg.timing = true then
    TestM.bind (CHECK_HIPBLAS_ERROR Event.getStream) (fun _ =>
    timingTail (Event.libCall none false) arg.cold_iters arg.iters)
  else TestM.pure ()) (fun _ =>
  TestM.pure HStatus.success)))))

/-- `testing_copy_strided_batched`: quick return with null data
pointers when `N <= 0 || batch_count <= 0`, otherwise the main body. -/
def testing_copy_strided_batched (arg : Arguments) : TestM HStatus :=
  if arg.N ≤ 0 ∨ arg.batch_count ≤ 0 then
    TestM.bind (CHECK_HIPBLAS_ERROR (Event.libCall none true))
      (fun _ => TestM.pure HStatus.success)
  else
    copy_main arg

/-! ### testing_geam_batched -/

/-- Modelled from the spec: `char2hipblas_operation` of the shared
test-support library maps the argument character to a transpose
operation; `HIPBLAS_OP_N` (no transpose) corresponds to the character
N. -/
def charIsOpN (c : Char) : Bool := c = 'N'

/-- `A_row` of `testing_geam_batched`: `M` when `transA` is
`HIPBLAS_OP_N`, else `N`. -/
def geam_A_row (arg : Arguments) : Int := if charIsOpN arg.transA then arg.M else arg.N

/-- `A_col` of `testing_geam_batched`. -/
def geam_A_col (arg : Arguments) : Int := if charIsOpN arg.transA then arg.N else arg.M

/-- `B_row` of `testing_geam_batched`. -/
def geam_B_row (arg : Arguments) : Int := if charIsOpN arg.transB then arg.M else arg.N

/-- `B_col` of `testing_geam_batched`. -/
def geam_B_col (arg : Arguments) : Int := if charIsOpN arg.transB then arg.N else arg.M

/-- The invalid-argument guard of `testing_geam_batched`:
`M <= 0 || N <= 0 || lda < A_row || ldb < B_row || ldc < M ||
batch_count < 0`. -/
def geam_invalid (arg : Arguments) : Prop :=
  arg.M ≤ 0 ∨ arg.N ≤ 0 ∨ arg.lda < geam_A_row arg ∨ arg.ldb < geam_B_row arg ∨
    arg.ldc < arg.M ∨ arg.batch_count < 0

instance (arg : Arguments) : Decidable (geam_invalid arg) := by
  unfold geam_invalid; infer_instance

/-- The main body of `testing_geam_batched` (reached when the guard
passes and `batch_count != 0`): device then host allocations,
memchecks, initialisation, five uploads, then optionally the
correctness block (host-pointer call, download, re-upload,
device-pointer call, download, CPU reference, comparisons) and the
timing block. -/
def geam_main (arg : Arguments) : TestM HStatus :=
  TestM.bind (emits
    [Event.allocDevice [arg.lda * geam_A_col arg, 1, arg.batch_count],
     Event.allocDevice [arg.ldb * geam_B_col arg, 1, arg.batch_count],
     Event.allocDevice [arg.ldc * arg.N, 1, arg.batch_count],
     Event.allocDevice [1], Event.allocDevice [1]]) (fun _ =>
  TestM.bind (CHECK_HIP_ERROR Event.memcheck) (fun _ =>
  TestM.bind (CHECK_HIP_ERROR Event.memcheck) (fun _ =>
  TestM.bind (CHECK_HIP_ERROR Event.memcheck) (fun _ =>
  TestM.bind (emits
    [Event.allocHost [arg.lda * geam_A_col arg, 1, arg.batch_count],
     Event.allocHost [arg.ldb * geam_B_col arg, 1, arg.batch_count],
     Event.allocHost [arg.ldc * arg.N, 1, arg.batch_count],
     Event.allocHost [arg.ldc * arg.N, 1, arg.batch_count],
     Event.allocHost [arg.ldc * arg.N, 1, arg.batch_count],
     Event.initVector, Event.initVector, Event.initVector,
     Event.hostCopy, Event.hostCopy]) (fun _ =>
  TestM.bind (CHECK_HIP_ERROR Event.transfer) (fun _ =>
  TestM.bind (CHECK_HIP_ERROR Event.transfer) (fun _ =>
  TestM.bind (CHECK_HIP_ERROR Event.transfer) (fun _ =>
  TestM.bind (CHECK_HIP_ERROR Event.transfer) (fun _ =>
  TestM.bind (CHECK_HIP_ERROR Event.transfer) (fun _ =>
  TestM.bind (if (arg.norm_check || arg.unit_check) = true then
    TestM.bind (CHECK_HIPBLAS_ERROR (Event.setPointerMode PMode.host)) (fun _ =>
    TestM.bind (CHECK_HIPBLAS_ERROR (Event.libCall (some PMode.host) false)) (fun _ =>
    TestM.bind (CHECK_HIP_ERROR Event.transfer) (fun _ =>
    TestM.bind (CHECK_HIP_ERROR Event.transfer) (fun _ =>
    TestM.bind (CHECK_HIPBLAS_ERROR (Event.setPointerMode PMode.device)) (fun _ =>
    TestM.bind (CHECK_HIPBLAS_ERROR (Event.libCall (some PMode.device) false)) (fun _ =>
    TestM.bind (CHECK_HIP_ERROR Event.transfer) (fun _ =>
    TestM.bind (emits [Event.cpuReference arg.batch_count.toNat]) (fun _ =>
    TestM.bind (if arg.unit_check = true then
        TestM.bind (cmpCall (Event.unitCheck (some PMode.host)))
          (fun _ => cmpCall (Event.unitCheck (some PMode.device)))
      else TestM.pure ()) (fun _ =>
    if arg.norm_check = true then
      emits [Event.normCheck (some PMode.host), Event.normCheck (some PMode.device)]
    else TestM.pure ())))))))))
  else TestM.pure ()) (fun _ =>
  TestM.bind (if arg.timing = true then
    TestM.bind (CHECK_HIPBLAS_ERROR Event.getStream) (fun _ =>
    TestM.bind (CHECK_HIPBLAS_ERROR (Event.setPointerMode PMode.device)) (fun _ =>
    timingTail (Event.libCall (some PMode.device) false) arg.cold_iters arg.iters))
  else TestM.pure ()) (fun _ =>
  TestM.pure HStatus.success))))))))))))

/-- `testing_geam_batched`: returns `HIPBLAS_STATUS_INVALID_VALUE`
without any further action when the argument guard fails,
`HIPBLAS_STATUS_SUCCESS` when `batch_count == 0`, otherwise runs the
main body. -/
def testing_geam_batched (arg : Arguments) : TestM HStatus :=
  if geam_invalid arg then TestM.pure HStatus.invalidValue
  else if arg.batch_count = 0 then TestM.pure HStatus.success
  else geam_main arg

/-! ### testing_rotmg -/

/-- `testing_rotmg`: a nine-element parameter vector, mirrored to the
CPU reference and to the device; host-pointer call, device-pointer
call, download, CPU reference, comparisons (`near_check_general`,
recorded as `unitCheck`), then optionally the timing block.  There is
no quick-return path. -/
def testing_rotmg (arg : Arguments) : TestM HStatus :=
  TestM.bind (emits
    [Event.allocHost [9], Event.initVector,
     Event.allocHost [9], Event.allocHost [9],
     Event.allocDevice [9]]) (fun _ =>
  TestM.bind (CHECK_HIP_ERROR Event.transfer) (fun _ =>
  TestM.bind (if (arg.unit_check || arg.norm_check) = true then
    TestM.bind (CHECK_HIPBLAS_ERROR (Event.setPointerMode PMode.host)) (fun _ =>
    TestM.bind (CHECK_HIPBLAS_ERROR (Event.libCall (some PMode.host) false)) (fun _ =>
    TestM.bind (CHECK_HIPBLAS_ERROR (Event.setPointerMode PMode.device)) (fun _ =>
    TestM.bind (CHECK_HIPBLAS_ERROR (Event.libCall (some PMode.device) false)) (fun _ =>
    TestM.bind (CHECK_HIP_ERROR Event.transfer) (fun _ =>
    TestM.bind (emits [Event.cpuReference 1]) (fun _ =>
    TestM.bind (if arg.unit_check = true then
        TestM.bind (cmpCall (Event.unitCheck (some PMode.host)))
          (fun _ => cmpCall (Event.unitCheck (some PMode.device)))
      else TestM.pure ()) (fun _ =>
    if arg.norm_check = true then
      emits [Event.normCheck (some PMode.host), Event.normCheck (some PMode.device)]
    else TestM.pure ())))))))
  else TestM.pure ()) (fun _ =>
  TestM.bind (if arg.timing = true then
    TestM.bind (CHECK_HIPBLAS_ERROR Event.getStream) (fun _ =>
    TestM.bind (CHECK_HIPBLAS_ERROR (Event.setPointerMode PMode.device)) (fun _ =>
    timingTail (Event.libCall (some PMode.device) false) arg.cold_iters arg.iters))
  else TestM.pure ()) (fun _ =>
  TestM.pure HStatus.success))))

/-! ### testing_tpsv_batched -/

/-- The invalid-size guard of `testing_tpsv_batched`:
`N < 0 || !incx || batch_count < 0`. -/
def tpsv_invalid_size (arg : Arguments) : Prop :=
  arg.N < 0 ∨ arg.incx = 0 ∨ arg.batch_count < 0

instance (arg : Arguments) : Decidable (tpsv_invalid_size arg) := by
  unfold tpsv_invalid_size; infer_instance

/-- The quick-return guard of `testing_tpsv_batched`:
`invalid_size || !N || !batch_count`. -/
def tpsv_quick (arg : Arguments) : Prop :=
  tpsv_invalid_size arg ∨ arg.N = 0 ∨ arg.batch_count = 0

instance (arg : Arguments) : Decidable (tpsv_quick arg) := by
  unfold tpsv_quick; infer_instance

/-- The main body of `testing_tpsv_batched`: the host and device
batch vectors (`size_A = N*N`, `size_AP = N*(N+1)/2`), memchecks,
data initialisation, the per-batch construction of the packed
triangular system (`cblas_gemm`, diagonal-dominance copy,
`cblas_potrf`, optional unit-diagonalisation, `cblas_trmv`,
`regular_to_packed` — recorded as the `cpuReference` event; its
numerics are modelled separately below), uploads, then optionally the
correctness block (a single invocation, no pointer mode selected, the
result compared against the exact solution) and the timing block
(which selects the host pointer mode). -/
def tpsv_main (arg : Arguments) : TestM HStatus :=
  TestM.bind (emits
    [Event.allocHost [arg.N * arg.N, 1, arg.batch_count],
     Event.allocHost [arg.N * (arg.N + 1) / 2, 1, arg.batch_count],
     Event.allocHost [arg.N * arg.N, 1, arg.batch_count],
     Event.allocHost [arg.N, arg.incx, arg.batch_count],
     Event.allocHost [arg.N, arg.incx, arg.batch_count],
     Event.allocHost [arg.N, arg.incx, arg.batch_count],
     Event.allocHost [arg.N, arg.incx, arg.batch_count],
     Event.allocHost [arg.N, arg.incx, arg.batch_count],
     Event.allocDevice [arg.N * (arg.N + 1) / 2, 1, arg.batch_count],
     Event.allocDevice [arg.N, arg.incx, arg.batch_count]]) (fun _ =>
  TestM.bind (CHECK_HIP_ERROR Event.memcheck) (fun _ =>
  TestM.bind (CHECK_HIP_ERROR Event.memcheck) (fun _ =>
  TestM.bind (emits
    [Event.initVector, Event.initVector, Event.hostCopy,
     Event.cpuReference arg.batch_count.toNat,
     Event.hostCopy, Event.hostCopy, Event.hostCopy]) (fun _ =>
  TestM.bind (CHECK_HIP_ERROR Event.transfer) (fun _ =>
  TestM.bind (CHECK_HIP_ERROR Event.transfer) (fun _ =>
  TestM.bind (if (arg.unit_check || arg.norm_check) = true then
    TestM.bind (CHECK_HIPBLAS_ERROR (Event.libCall none false)) (fun _ =>
    TestM.bind (CHECK_HIP_ERROR Event.transfer) (fun _ =>
    TestM.bind (emits [Event.normCheck none]) (fun _ =>
    if arg.unit_check = true then cmpCall (Event.unitCheck none) else TestM.pure ())))
  else TestM.pure ()) (fun _ =>
  TestM.bind (if arg.timing = true then
    TestM.bind (CHECK_HIPBLAS_ERROR Event.getStream) (fun _ =>
    TestM.bind (CHECK_HIPBLAS_ERROR (Event.setPointerMode PMode.host)) (fun _ =>
    timingTail (Event.libCall (some PMode.host) false) arg.cold_iters arg.iters))
  else TestM.pure ()) (fun _ =>
  TestM.pure HStatus.success))))))))

/-- `testing_tpsv_batched`: on the quick-return path the routine is
invoked with null data pointers WITHOUT a checking macro, the actual
status is asserted against the expected one with
`EXPECT_HIPBLAS_STATUS` and then returned; otherwise the main body
runs. -/
def testing_tpsv_batched (arg : Arguments) : TestM HStatus :=
  if tpsv_quick arg then
    TestM.bind (hipblasCall (Event.libCall none true)) (fun actual =>
    TestM.bind (emits [Event.expectStatus actual
      (if tpsv_invalid_size arg then HStatus.invalidValue else HStatus.success)])
      (fun _ => TestM.pure actual))
  else
    tpsv_main arg

/-! ### Error propagation -/

/-- Which events are external calls that returned a non-success
status, and the failure they propagate. -/
def evFailure : Event → Option Failure
  | Event.memcheck e => if e = HipErr.success then none else some (Failure.hip e)
  | Event.transfer e => if e = HipErr.success then none else some (Failure.hip e)
  | Event.setPointerMode _ st =>
      if st = HStatus.success then none else some (Failure.hipblas st)
  | Event.getStream st => if st = HStatus.success then none else some (Failure.hipblas st)
  | Event.libCall _ _ st => if st = HStatus.success then none else some (Failure.hipblas st)
  | _ => none

/-- A list of events none of which is a failing external call. -/
def GoodEvs (l : List Event) : Prop := ∀ e ∈ l, evFailure e = none
/-- The propagation invariant of a driver fragment: it only appends
to the trace; on normal termination every appended event is a
successful call; on a `Failure` the appended events are successful
calls followed by exactly the failing call, whose status is the
propagated failure. -/
def Propagates (m : TestM α) : Prop :=
  ∀ s : TestSt,
    (∃ a s', m s = (Except.ok a, s') ∧ ∃ Δ, GoodEvs Δ ∧ s'.trace = s.trace ++ Δ) ∨
    (∃ f s', m s = (Except.error f, s') ∧ ∃ Δ e, GoodEvs Δ ∧ evFailure e = some f ∧
       s'.trace = s.trace ++ Δ ++ [e])

theorem goodEvs_nil : GoodEvs [] := by intro e he; cases he

theorem goodEvs_append {l₁ l₂ : List Event} (h₁ : GoodEvs l₁) (h₂ : GoodEvs l₂) :
    GoodEvs (l₁ ++ l₂) := by
  intro e he
  rcases List.mem_append.mp he with h | h
  · exact h₁ e h
  · exact h₂ e h

theorem propagates_pure (a : α) : Propagates (TestM.pure a) := by
  intro s
  exact Or.inl ⟨a, s, rfl, [], goodEvs_nil, by simp⟩

theorem propagates_bind {m : TestM α} {k : α → TestM β}
    (hm : Propagates m) (hk : ∀ a, Propagates (k a)) : Propagates (TestM.bind m k) := by
  intro s
  rcases hm s with ⟨a, s₁, hms, Δ₁, hg₁, ht₁⟩ | ⟨f, s₁, hms, Δ, e, hg, he, ht⟩
  · have hrun : TestM.bind m k s = k a s₁ := by
      simp [TestM.bind, hms]
    rcases hk a s₁ with ⟨b, s₂, hks, Δ₂, hg₂, ht₂⟩ | ⟨f, s₂, hks, Δ₂, e, hg₂, he₂, ht₂⟩
    · refine Or.inl ⟨b, s₂, by rw [hrun, hks], Δ₁ ++ Δ₂, goodEvs_append hg₁ hg₂, ?_⟩
      rw [ht₂, ht₁, List.append_assoc]
    · refine Or.inr ⟨f, s₂, by rw [hrun, hks], Δ₁ ++ Δ₂, e, goodEvs_append hg₁ hg₂, he₂, ?_⟩
      rw [ht₂, ht₁]
      simp [List.append_assoc]
  · refine Or.inr ⟨f, s₁, ?_, Δ, e, hg, he, ht⟩
    simp [TestM.bind, hms]

theorem propagates_ite {c : Prop} [Decidable c] {m₁ m₂ : TestM α}
    (h₁ : Propagates m₁) (h₂ : Propagates m₂) : Propagates (if c then m₁ else m₂) := by
  by_cases hc : c
  · simpa [hc] using h₁
  · simpa [hc] using h₂

theorem propagates_emits (l : List Event) (hl : GoodEvs l) : Propagates (emits l) := by
  intro s
  exact Or.inl ⟨(), _, rfl, l, hl, by simp⟩

theorem goodEvs_singleton {e : Event} (h : evFailure e = none) : GoodEvs [e] := by
  intro x hx
  simp only [List.mem_singleton] at hx
  subst hx
  exact h

@[simp] theorem CHECK_HIPBLAS_ERROR_apply (mk : HStatus → Event) (s : TestSt) :
    CHECK_HIPBLAS_ERROR mk s =
      (if s.env.gpu s.gpuIdx = HStatus.success then Except.ok ()
        else Except.error (Failure.hipblas (s.env.gpu s.gpuIdx)),
       { s with gpuIdx := s.gpuIdx + 1,
                trace := s.trace ++ [mk (s.env.gpu s.gpuIdx)] }) := by
  unfold CHECK_HIPBLAS_ERROR
  by_cases h : s.env.gpu s.gpuIdx = HStatus.success <;> simp [TestM.bind, h]

@[simp] theorem CHECK_HIP_ERROR_apply (mk : HipErr → Event) (s : TestSt) :
    CHECK_HIP_ERROR mk s =
      (if s.env.hip s.hipIdx = HipErr.success then Except.ok ()
        else Except.error (Failure.hip (s.env.hip s.hipIdx)),
       { s with hipIdx := s.hipIdx + 1,
                trace := s.trace ++ [mk (s.env.hip s.hipIdx)] }) := by
  unfold CHECK_HIP_ERROR
  by_cases h : s.env.hip s.hipIdx = HipErr.success <;> simp [TestM.bind, h]

theorem propagates_check_hipblas (mk : HStatus → Event)
    (hmk : ∀ st, evFailure (mk st) = if st = HStatus.success then none
      else some (Failure.hipblas st)) :
    Propagates (CHECK_HIPBLAS_ERROR mk) := by
  intro s
  by_cases h : s.env.gpu s.gpuIdx = HStatus.success
  · exact Or.inl ⟨(), _, by rw [CHECK_HIPBLAS_ERROR_apply, if_pos h],
      [mk (s.env.gpu s.gpuIdx)], goodEvs_singleton (by rw [hmk, if_pos h]), rfl⟩
  · exact Or.inr ⟨Failure.hipblas (s.env.gpu s.gpuIdx), _,
      by rw [CHECK_HIPBLAS_ERROR_apply, if_neg h],
      [], mk (s.env.gpu s.gpuIdx), goodEvs_nil, by rw [hmk, if_neg h], by simp⟩

theorem propagates_check_hip (mk : HipErr → Event)
    (hmk : ∀ e, evFailure (mk e) = if e = HipErr.success then none
      else some (Failure.hip e)) :
    Propagates (CHECK_HIP_ERROR mk) := by
  intro s
  by_cases h : s.env.hip s.hipIdx = HipErr.success
  · exact Or.inl ⟨(), _, by rw [CHECK_HIP_ERROR_apply, if_pos h],
      [mk (s.env.hip s.hipIdx)], goodEvs_singleton (by rw [hmk, if_pos h]), rfl⟩
  · exact Or.inr ⟨Failure.hip (s.env.hip s.hipIdx), _,
      by rw [CHECK_HIP_ERROR_apply, if_neg h],
      [], mk (s.env.hip s.hipIdx), goodEvs_nil, by rw [hmk, if_neg h], by simp⟩

theorem propagates_cmp (mk : Bool → Event) (hmk : ∀ b, evFailure (mk b) = none) :
    Propagates (cmpCall mk) := by
  intro s
  exact Or.inl ⟨(), _, rfl, [mk (s.env.cmp s.cmpIdx)], goodEvs_singleton (hmk _), by simp⟩

@[simp] theorem startGpuTime_apply (s : TestSt) :
    startGpuTime s =
      (Except.ok (),
       { s with timeIdx := s.timeIdx + 1,
                trace := s.trace ++ [Event.timestamp s.timeIdx],
                gpuTime := some (s.env.time s.timeIdx) }) := by
  simp [startGpuTime, TestM.bind]

@[simp] theorem finishGpuTime_apply (s : TestSt) :
    finishGpuTime s =
      (Except.ok (),
       { s with timeIdx := s.timeIdx + 1,
                trace := s.trace ++ [Event.timestamp s.timeIdx],
                gpuTime := Option.map (fun t0 => s.env.time s.timeIdx - t0) s.gpuTime }) := by
  simp [finishGpuTime, TestM.bind]

theorem propagates_startGpuTime : Propagates startGpuTime := by
  intro s
  exact Or.inl ⟨(), _, startGpuTime_apply s, [Event.timestamp s.timeIdx],
    goodEvs_singleton rfl, rfl⟩

theorem propagates_finishGpuTime : Propagates finishGpuTime := by
  intro s
  exact Or.inl ⟨(), _, finishGpuTime_apply s, [Event.timestamp s.timeIdx],
    goodEvs_singleton rfl, rfl⟩

theorem propagates_emitLog : Propagates emitLog := by
  intro s
  exact Or.inl ⟨(), _, rfl, [Event.logArgs s.gpuTime], goodEvs_singleton rfl, by simp⟩

theorem propagates_timedLoopAux (callEv : HStatus → Event)
    (hmk : ∀ st, evFailure (callEv st) = if st = HStatus.success then none
      else some (Failure.hipblas st)) (cold : Int) :
    ∀ n iter, Propagates (timedLoopAux callEv cold n iter) := by
  intro n
  induction n with
  | zero => intro iter; exact propagates_pure ()
  | succ n ih =>
      intro iter
      exact propagates_bind (propagates_ite propagates_startGpuTime (propagates_pure ()))
        (fun _ => propagates_bind (propagates_check_hipblas callEv hmk) (fun _ => ih _))

theorem propagates_timingTail (callEv : HStatus → Event)
    (hmk : ∀ st, evFailure (callEv st) = if st = HStatus.success then none
      else some (Failure.hipblas st)) (cold iters : Int) :
    Propagates (timingTail callEv cold iters) :=
  propagates_bind (propagates_timedLoopAux callEv hmk cold _ _)
    (fun _ => propagates_bind propagates_finishGpuTime (fun _ => propagates_emitLog))

@[simp] theorem evFailure_allocHost (d : List Int) : evFailure (Event.allocHost d) = none := rfl

@[simp] theorem evFailure_allocDevice (d : List Int) :
    evFailure (Event.allocDevice d) = none := rfl

@[simp] theorem evFailure_initVector : evFailure Event.initVector = none := rfl

@[simp] theorem evFailure_hostCopy : evFailure Event.hostCopy = none := rfl

@[simp] theorem evFailure_cpuReference (b : Nat) : evFailure (Event.cpuReference b) = none := rfl

@[simp] theorem evFailure_unitCheck (w : Option PMode) (b : Bool) :
    evFailure (Event.unitCheck w b) = none := rfl

@[simp] theorem evFailure_normCheck (w : Option PMode) :
    evFailure (Event.normCheck w) = none := rfl

@[simp] theorem evFailure_expectStatus (a b : HStatus) :
    evFailure (Event.expectStatus a b) = none := rfl

@[simp] theorem evFailure_timestamp (k : Nat) : evFailure (Event.timestamp k) = none := rfl

@[simp] theorem evFailure_logArgs (t : Option ℚ) : evFailure (Event.logArgs t) = none := rfl

theorem propagates_CHB_setMode (m : PMode) :
    Propagates (CHECK_HIPBLAS_ERROR (Event.setPointerMode m)) :=
  propagates_check_hipblas _ (fun _ => rfl)

theorem propagates_CHB_libCall (mode : Option PMode) (nullData : Bool) :
    Propagates (CHECK_HIPBLAS_ERROR (Event.libCall mode nullData)) :=
  propagates_check_hipblas _ (fun _ => rfl)

theorem propagates_CHB_getStream : Propagates (CHECK_HIPBLAS_ERROR Event.getStream) :=
  propagates_check_hipblas _ (fun _ => rfl)

theorem propagates_CH_memcheck : Propagates (CHECK_HIP_ERROR Event.memcheck) :=
  propagates_check_hip _ (fun _ => rfl)

theorem propagates_CH_transfer : Propagates (CHECK_HIP_ERROR Event.transfer) :=
  propagates_check_hip _ (fun _ => rfl)

theorem propagates_timingTail_libCall (mode : Option PMode) (nullData : Bool)
    (cold iters : Int) :
    Propagates (timingTail (Event.libCall mode nullData) cold iters) :=
  propagates_timingTail (Event.libCall mode nullData) (fun _ => rfl) cold iters

theorem propagates_axpy (arg : Arguments) : Propagates (testing_axpy_batched arg) := by
  unfold testing_axpy_batched axpy_main
  repeat first
    | exact propagates_CHB_setMode _
    | exact propagates_CHB_libCall _ _
    | exact propagates_CHB_getStream
    | exact propagates_CH_memcheck
    | exact propagates_CH_transfer
    | exact propagates_timingTail_libCall _ _ _ _
    | exact propagates_cmp _ (fun _ => rfl)
    | exact propagates_emits _ (by simp [GoodEvs])
    | exact propagates_pure _
    | apply propagates_bind
    | apply propagates_ite
    | intro a

theorem propagates_copy (arg : Arguments) : Propagates (testing_copy_strided_batched arg) := by
  unfold testing_copy_strided_batched copy_main
  repeat first
    | exact propagates_CHB_setMode _
    | exact propagates_CHB_libCall _ _
    | exact propagates_CHB_getStream
    | exact propagates_CH_memcheck
    | exact propagates_CH_transfer
    | exact propagates_timingTail_libCall _ _ _ _
    | exact propagates_cmp _ (fun _ => rfl)
    | exact propagates_emits _ (by simp [GoodEvs])
    | exact propagates_pure _
    | apply propagates_bind
    | apply propagates_ite
    | intro a

theorem propagates_geam (arg : Arguments) : Propagates (testing_geam_batched arg) := by
  unfold testing_geam_batched geam_main
  repeat first
    | exact propagates_CHB_setMode _
    | exact propagates_CHB_libCall _ _
    | exact propagates_CHB_getStream
    | exact propagates_CH_memcheck
    | exact propagates_CH_transfer
    | exact propagates_timingTail_libCall _ _ _ _
    | exact propagates_cmp _ (fun _ => rfl)
    | exact propagates_emits _ (by simp [GoodEvs])
    | exact propagates_pure _
    | apply propagates_bind
    | apply propagates_ite
    | intro a

theorem propagates_rotmg (arg : Arguments) : Propagates (testing_rotmg arg) := by
  unfold testing_rotmg
  repeat first
    | exact propagates_CHB_setMode _
    | exact propagates_CHB_libCall _ _
    | exact propagates_CHB_getStream
    | exact propagates_CH_memcheck
    | exact propagates_CH_transfer
    | exact propagates_timingTail_libCall _ _ _ _
    | exact propagates_cmp _ (fun _ => rfl)
    | exact propagates_emits _ (by simp [GoodEvs])
    | exact propagates_pure _
    | apply propagates_bind
    | apply propagates_ite
    | intro a

theorem propagates_tpsv_main (arg : Arguments) : Propagates (tpsv_main arg) := by
  unfold tpsv_main
  repeat first
    | exact propagates_CHB_setMode _
    | exact propagates_CHB_libCall _ _
    | exact propagates_CHB_getStream
    | exact propagates_CH_memcheck
    | exact propagates_CH_transfer
    | exact propagates_timingTail_libCall _ _ _ _
    | exact propagates_cmp _ (fun _ => rfl)
    | exact propagates_emits _ (by simp [GoodEvs])
    | exact propagates_pure _
    | apply propagates_bind
    | apply propagates_ite
    | intro a

/-- The propagation property of a completed run: whenever a failing
external call appears on the trace, it is the final event of the
trace (nothing executed after it) and its status is exactly the
`Failure` result of the test function. -/
def PropagationOK (p : Except Failure HStatus × List Event) : Prop :=
  ∀ pre e post f, p.2 = pre ++ e :: post → evFailure e = some f →
    post = [] ∧ p.1 = Except.error f

theorem last_good_decomp {Δ : List Event} {e' : Event} (hg : GoodEvs Δ)
    {pre : List Event} {e : Event} {post : List Event} {f : Failure}
    (heq : Δ ++ [e'] = pre ++ e :: post) (hb : evFailure e = some f) :
    e = e' ∧ post = [] := by
  rcases List.eq_nil_or_concat post with hpost | ⟨post', x, hpost⟩
  · subst hpost
    have h := List.append_inj' heq rfl
    refine ⟨?_, rfl⟩
    have := h.2
    simpa using this.symm
  · subst hpost
    exfalso
    have heq2 : Δ ++ [e'] = (pre ++ e :: post') ++ [x] := by
      rw [heq, List.concat_eq_append]
      simp
    have h := List.append_inj' heq2 rfl
    have hmem : e ∈ Δ := by
      rw [h.1]
      exact List.mem_append.mpr (Or.inr (List.mem_cons_self _ _))
    rw [hg e hmem] at hb
    cases hb

theorem propagationOK_of_propagates {m : TestM HStatus} (h : Propagates m) (env : Env) :
    PropagationOK (runTest m env) := by
  intro pre e post f heq hb
  rcases h (initSt env) with ⟨a, s', hms, Δ, hg, ht⟩ | ⟨f', s', hms, Δ, e', hg, he', ht⟩
  · exfalso
    have h2 : (runTest m env).2 = Δ := by
      simp only [runTest, hms]
      simpa [initSt] using ht
    rw [h2] at heq
    have hmem : e ∈ Δ := by
      rw [heq]
      exact List.mem_append.mpr (Or.inr (List.mem_cons_self _ _))
    rw [hg e hmem] at hb
    cases hb
  · have h2 : (runTest m env).2 = Δ ++ [e'] := by
      simp only [runTest, hms]
      simpa [initSt] using ht
    have h1 : (runTest m env).1 = Except.error f' := by simp [runTest, hms]
    rw [h2] at heq
    obtain ⟨hee, hpost⟩ := last_good_decomp hg heq hb
    subst hee
    have hf : f' = f := by
      have h3 := he'.symm.trans hb
      injection h3
    exact ⟨hpost, by rw [h1, hf]⟩

theorem timedLoopAux_nostamp (callEv : HStatus → Event) (cold : Int) (n : Nat) :
    ∀ (iter : Nat) (s : TestSt), (∀ k, s.env.gpu k = HStatus.success) →
    (∀ m, m < n → ((iter + m : Nat) : Int) ≠ cold) →
    timedLoopAux callEv cold n iter s =
      (Except.ok (),
       { s with gpuIdx := s.gpuIdx + n,
                trace := s.trace ++ List.replicate n (callEv HStatus.success) }) := by
  induction n with
  | zero =>
      intro iter s hg hno
      simp [timedLoopAux]
  | succ n ih =>
      intro iter s hg hno
      have hne : ((iter : Nat) : Int) ≠ cold := by
        have := hno 0 (by omega)
        simpa using this
      simp only [timedLoopAux, TestM.bind_apply, if_neg hne, TestM.pure_apply,
        CHECK_HIPBLAS_ERROR_apply, hg, eq_self_iff_true, if_true]
      rw [ih (iter + 1) _ (by simpa using hg) (by intro m hm; have := hno (m+1) (by omega); omega)]
      simp [List.replicate_succ]
      omega

theorem timedLoopAux_stamp (callEv : HStatus → Event) (cold : Int) (n : Nat) :
    ∀ (iter : Nat) (s : TestSt), (∀ k, s.env.gpu k = HStatus.success) →
    ((iter : Int) ≤ cold) → (cold < (iter : Int) + n) →
    timedLoopAux callEv cold n iter s =
      (Except.ok (),
       { s with gpuIdx := s.gpuIdx + n,
                timeIdx := s.timeIdx + 1,
                gpuTime := some (s.env.time s.timeIdx),
                trace := s.trace
                  ++ List.replicate (cold - iter).toNat (callEv HStatus.success)
                  ++ [Event.timestamp s.timeIdx]
                  ++ List.replicate (n - (cold - iter).toNat) (callEv HStatus.success) }) := by
  induction n with
  | zero =>
      intro iter s hg h0 h1
      omega
  | succ n ih =>
      intro iter s hg h0 h1
      by_cases hne : ((iter : Nat) : Int) = cold
      · have htz : (cold - iter).toNat = 0 := by omega
        simp only [timedLoopAux, TestM.bind_apply, if_pos hne, startGpuTime_apply,
          CHECK_HIPBLAS_ERROR_apply, hg, eq_self_iff_true, if_true]
        rw [timedLoopAux_nostamp callEv cold n (iter + 1) _ (by simpa using hg)
          (by intro m hm; omega)]
        simp [htz, List.replicate_succ]
        omega
      · have hlt : (iter : Int) < cold := lt_of_le_of_ne h0 hne
        simp only [timedLoopAux, TestM.bind_apply, if_neg hne, TestM.pure_apply,
          CHECK_HIPBLAS_ERROR_apply, hg, eq_self_iff_true, if_true]
        rw [ih (iter + 1) _ (by simpa using hg) (by omega) (by omega)]
        have hrep : (cold - iter).toNat = ((cold - (iter + 1)).toNat) + 1 := by omega
        simp [hrep, List.replicate_succ]
        omega

def timedBlockTrace (env : Env) (callE : Event) (cold iters : Int) (t0 : Nat) : List Event :=
  if 0 ≤ cold ∧ cold < cold + iters then
    List.replicate cold.toNat callE ++ [Event.timestamp t0]
      ++ List.replicate iters.toNat callE
      ++ [Event.timestamp (t0 + 1), Event.logArgs (some (env.time (t0 + 1) - env.time t0))]
  else
    List.replicate (cold + iters).toNat callE
      ++ [Event.timestamp t0, Event.logArgs none]

theorem timingTail_run (callEv : HStatus → Event) (cold iters : Int) (s : TestSt)
    (hg : ∀ k, s.env.gpu k = HStatus.success) (hgt : s.gpuTime = none) :
    timingTail callEv cold iters s =
      (Except.ok (),
       { s with gpuIdx := s.gpuIdx + (cold + iters).toNat,
                timeIdx := s.timeIdx + (if 0 ≤ cold ∧ cold < cold + iters then 2 else 1),
                gpuTime := (if 0 ≤ cold ∧ cold < cold + iters then
                   some (s.env.time (s.timeIdx + 1) - s.env.time s.timeIdx) else none),
                trace := s.trace
                  ++ timedBlockTrace s.env (callEv HStatus.success) cold iters s.timeIdx }) := by
  by_cases h : 0 ≤ cold ∧ cold < cold + iters
  · unfold timingTail
    rw [TestM.bind_apply,
      timedLoopAux_stamp callEv cold (cold + iters).toNat 0 s hg (by omega) (by omega)]
    simp only [TestM.bind_apply, finishGpuTime_apply, emitLog_apply, Option.map_some]
    have h1 : (cold - (0 : Nat)).toNat = cold.toNat := by omega
    have h2 : (cold + iters).toNat - (cold - (0 : Nat)).toNat = iters.toNat := by omega
    simp only [h1, h2, timedBlockTrace, if_pos h]
    simp
    omega
  · unfold timingTail
    rw [TestM.bind_apply,
      timedLoopAux_nostamp callEv cold (cold + iters).toNat 0 s hg (by intro m hm; omega)]
    simp only [TestM.bind_apply, finishGpuTime_apply, emitLog_apply, hgt, Option.map_none]
    simp only [timedBlockTrace, if_neg h]
    simp

def corrBlockAxpy (env : Env) (arg : Arguments) : List Event :=
  if (arg.unit_check || arg.norm_check) = true then
    [Event.setPointerMode PMode.device HStatus.success,
     Event.libCall (some PMode.device) false HStatus.success,
     Event.setPointerMode PMode.host HStatus.success,
     Event.libCall (some PMode.host) false HStatus.success,
     Event.transfer HipErr.success, Event.transfer HipErr.success,
     Event.cpuReference arg.batch_count.toNat]
    ++ (if arg.unit_check = true then
        [Event.unitCheck (some PMode.host) (env.cmp 0),
         Event.unitCheck (some PMode.device) (env.cmp 1)] else [])
    ++ (if arg.norm_check = true then
        [Event.normCheck (some PMode.host), Event.normCheck (some PMode.device)] else [])
  else []

def timeBlockAxpy (env : Env) (arg : Arguments) : List Event :=
  if arg.timing = true then
    [Event.getStream HStatus.success, Event.setPointerMode PMode.device HStatus.success]
    ++ timedBlockTrace env (Event.libCall (some PMode.device) false HStatus.success)
         arg.cold_iters arg.iters 0
  else []

def axpyStatic (arg : Arguments) : List Event :=
  [Event.allocHost [arg.N, arg.incx, arg.batch_count],
   Event.allocHost [arg.N, arg.incy, arg.batch_count],
   Event.allocHost [arg.N, arg.incy, arg.batch_count],
   Event.allocHost [arg.N, arg.incx, arg.batch_count],
   Event.allocHost [arg.N, arg.incy, arg.batch_count],
   Event.allocDevice [arg.N, arg.incx, arg.batch_count],
   Event.allocDevice [arg.N, arg.incy, arg.batch_count],
   Event.allocDevice [arg.N, arg.incy, arg.batch_count],
   Event.allocDevice [1],
   Event.memcheck HipErr.success, Event.memcheck HipErr.success,
   Event.memcheck HipErr.success,
   Event.initVector, Event.initVector,
   Event.hostCopy, Event.hostCopy, Event.hostCopy,
   Event.transfer HipErr.success, Event.transfer HipErr.success,
   Event.transfer HipErr.success, Event.transfer HipErr.success]

def axpyMainTrace (env : Env) (arg : Arguments) : List Event :=
  axpyStatic arg
  ++ corrBlockAxpy env arg ++ timeBlockAxpy env arg

theorem axpy_run (arg : Arguments) (env : Env)
    (hg : ∀ k, env.gpu k = HStatus.success) (hh : ∀ k, env.hip k = HipErr.success)
    (hq : ¬(arg.N ≤ 0 ∨ arg.batch_count ≤ 0)) :
    runTest (testing_axpy_batched arg) env =
      (Except.ok HStatus.success, axpyMainTrace env arg) := by
  unfold testing_axpy_batched
  rw [if_neg hq]
  unfold axpy_main runTest axpyMainTrace axpyStatic corrBlockAxpy timeBlockAxpy
  cases hu : arg.unit_check <;> cases hn : arg.norm_check <;> cases ht : arg.timing <;>
    simp [TestM.bind_apply, emits_apply, CHECK_HIP_ERROR_apply, CHECK_HIPBLAS_ERROR_apply,
      cmpCall_apply, initSt, hg, hh, timingTail_run]

theorem axpy_quick_run (arg : Arguments) (env : Env)
    (hq : arg.N ≤ 0 ∨ arg.batch_count ≤ 0) :
    runTest (testing_axpy_batched arg) env =
      (if env.gpu 0 = HStatus.success then Except.ok HStatus.success
        else Except.error (Failure.hipblas (env.gpu 0)),
       [Event.libCall none true (env.gpu 0)]) := by
  unfold testing_axpy_batched runTest
  rw [if_pos hq]
  by_cases h : env.gpu 0 = HStatus.success <;>
    simp [TestM.bind_apply, CHECK_HIPBLAS_ERROR_apply, initSt, h]

theorem copy_quick_run (arg : Arguments) (env : Env)
    (hq : arg.N ≤ 0 ∨ arg.batch_count ≤ 0) :
    runTest (testing_copy_strided_batched arg) env =
      (if env.gpu 0 = HStatus.success then Except.ok HStatus.success
        else Except.error (Failure.hipblas (env.gpu 0)),
       [Event.libCall none true (env.gpu 0)]) := by
  unfold testing_copy_strided_batched runTest
  rw [if_pos hq]
  by_cases h : env.gpu 0 = HStatus.success <;>
    simp [TestM.bind_apply, CHECK_HIPBLAS_ERROR_apply, initSt, h]

theorem tpsv_quick_run (arg : Arguments) (env : Env) (hq : tpsv_quick arg) :
    runTest (testing_tpsv_batched arg) env =
      (Except.ok (env.gpu 0),
       [Event.libCall none true (env.gpu 0),
        Event.expectStatus (env.gpu 0)
          (if tpsv_invalid_size arg then HStatus.invalidValue else HStatus.success)]) := by
  unfold testing_tpsv_batched runTest
  rw [if_pos hq]
  simp [TestM.bind_apply, initSt]

theorem geam_invalid_run (arg : Arguments) (env : Env) (hq : geam_invalid arg) :
    runTest (testing_geam_batched arg) env = (Except.ok HStatus.invalidValue, []) := by
  unfold testing_geam_batched runTest
  rw [if_pos hq]
  simp [initSt]

theorem geam_zero_run (arg : Arguments) (env : Env) (hq : ¬ geam_invalid arg)
    (hb : arg.batch_count = 0) :
    runTest (testing_geam_batched arg) env = (Except.ok HStatus.success, []) := by
  unfold testing_geam_batched runTest
  rw [if_neg hq, if_pos hb]
  simp [initSt]

def corrBlockCopy (env : Env) (arg : Arguments) : List Event :=
  if (arg.unit_check || arg.norm_check) = true then
    [Event.libCall none false HStatus.success,
     Event.transfer HipErr.success, Event.transfer HipErr.success,
     Event.cpuReference arg.batch_count.toNat]
    ++ (if arg.unit_check = true then [Event.unitCheck none (env.cmp 0)] else [])
    ++ (if arg.norm_check = true then [Event.normCheck none] else [])
  else []

def timeBlockCopy (env : Env) (arg : Arguments) : List Event :=
  if arg.timing = true then
    [Event.getStream HStatus.success]
    ++ timedBlockTrace env (Event.libCall none false HStatus.success)
         arg.cold_iters arg.iters 0
  else []

def copyStatic (arg : Arguments) : List Event :=
  [Event.allocHost [copy_size (copy_stride arg.N arg.incx arg.stride_scale) arg.batch_count],
   Event.allocHost [copy_size (copy_stride arg.N arg.incy arg.stride_scale) arg.batch_count],
   Event.allocHost [copy_size (copy_stride arg.N arg.incx arg.stride_scale) arg.batch_count],
   Event.allocHost [copy_size (copy_stride arg.N arg.incy arg.stride_scale) arg.batch_count],
   Event.allocDevice [copy_size (copy_stride arg.N arg.incx arg.stride_scale) arg.batch_count],
   Event.allocDevice [copy_size (copy_stride arg.N arg.incy arg.stride_scale) arg.batch_count],
   Event.initVector, Event.initVector, Event.hostCopy, Event.hostCopy,
   Event.transfer HipErr.success, Event.transfer HipErr.success]

def copyMainTrace (env : Env) (arg : Arguments) : List Event :=
  copyStatic arg
  ++ corrBlockCopy env arg ++ timeBlockCopy env arg

theorem copy_run (arg : Arguments) (env : Env)
    (hg : ∀ k, env.gpu k = HStatus.success) (hh : ∀ k, env.hip k = HipErr.success)
    (hq : ¬(arg.N ≤ 0 ∨ arg.batch_count ≤ 0)) :
    runTest (testing_copy_strided_batched arg) env =
      (Except.ok HStatus.success, copyMainTrace env arg) := by
  unfold testing_copy_strided_batched
  rw [if_neg hq]
  unfold copy_main runTest copyMainTrace copyStatic corrBlockCopy timeBlockCopy
  cases hu : arg.unit_check <;> cases hn : arg.norm_check <;> cases ht : arg.timing <;>
    simp [TestM.bind_apply, emits_apply, CHECK_HIP_ERROR_apply, CHECK_HIPBLAS_ERROR_apply,
      cmpCall_apply, initSt, hg, hh, timingTail_run]

def corrBlockGeam (env : Env) (arg : Arguments) : List Event :=
  if (arg.norm_check || arg.unit_check) = true then
    [Event.setPointerMode PMode.host HStatus.success,
     Event.libCall (some PMode.host) false HStatus.success,
     Event.transfer HipErr.success, Event.transfer HipErr.success,
     Event.setPointerMode PMode.device HStatus.success,
     Event.libCall (some PMode.device) false HStatus.success,
     Event.transfer HipErr.success,
     Event.cpuReference arg.batch_count.toNat]
    ++ (if arg.unit_check = true then
        [Event.unitCheck (some PMode.host) (env.cmp 0),
         Event.unitCheck (some PMode.device) (env.cmp 1)] else [])
    ++ (if arg.norm_check = true then
        [Event.normCheck (some PMode.host), Event.normCheck (some PMode.device)] else [])
  else []

def timeBlockGeam (env : Env) (arg : Arguments) : List Event :=
  if arg.timing = true then
    [Event.getStream HStatus.success, Event.setPointerMode PMode.device HStatus.success]
    ++ timedBlockTrace env (Event.libCall (some PMode.device) false HStatus.success)
         arg.cold_iters arg.iters 0
  else []

def geamStatic (arg : Arguments) : List Event :=
  [Event.allocDevice [arg.lda * geam_A_col arg, 1, arg.batch_count],
   Event.allocDevice [arg.ldb * geam_B_col arg, 1, arg.batch_count],
   Event.allocDevice [arg.ldc * arg.N, 1, arg.batch_count],
   Event.allocDevice [1], Event.allocDevice [1],
   Event.memcheck HipErr.success, Event.memcheck HipErr.success,
   Event.memcheck HipErr.success,
   Event.allocHost [arg.lda * geam_A_col arg, 1, arg.batch_count],
   Event.allocHost [arg.ldb * geam_B_col arg, 1, arg.batch_count],
   Event.allocHost [arg.ldc * arg.N, 1, arg.batch_count],
   Event.allocHost [arg.ldc * arg.N, 1, arg.batch_count],
   Event.allocHost [arg.ldc * arg.N, 1, arg.batch_count],
   Event.initVector, Event.initVector, Event.initVector,
   Event.hostCopy, Event.hostCopy,
   Event.transfer HipErr.success, Event.transfer HipErr.success,
   Event.transfer HipErr.success, Event.transfer HipErr.success,
   Event.transfer HipErr.success]

def geamMainTrace (env : Env) (arg : Arguments) : List Event :=
  geamStatic arg
  ++ corrBlockGeam env arg ++ timeBlockGeam env arg

theorem geam_run (arg : Arguments) (env : Env)
    (hg : ∀ k, env.gpu k = HStatus.success) (hh : ∀ k, env.hip k = HipErr.success)
    (hq : ¬ geam_invalid arg) (hb : arg.batch_count ≠ 0) :
    runTest (testing_geam_batched arg) env =
      (Except.ok HStatus.success, geamMainTrace env arg) := by
  unfold testing_geam_batched
  rw [if_neg hq, if_neg hb]
  unfold geam_main runTest geamMainTrace geamStatic corrBlockGeam timeBlockGeam
  cases hu : arg.unit_check <;> cases hn : arg.norm_check <;> cases ht : arg.timing <;>
    simp [TestM.bind_apply, emits_apply, CHECK_HIP_ERROR_apply, CHECK_HIPBLAS_ERROR_apply,
      cmpCall_apply, initSt, hg, hh, timingTail_run]

def corrBlockRotmg (env : Env) (arg : Arguments) : List Event :=
  if (arg.unit_check || arg.norm_check) = true then
    [Event.setPointerMode PMode.host HStatus.success,
     Event.libCall (some PMode.host) false HStatus.success,
     Event.setPointerMode PMode.device HStatus.success,
     Event.libCall (some PMode.device) false HStatus.success,
     Event.transfer HipErr.success,
     Event.cpuReference 1]
    ++ (if arg.unit_check = true then
        [Event.unitCheck (some PMode.host) (env.cmp 0),
         Event.unitCheck (some PMode.device) (env.cmp 1)] else [])
    ++ (if arg.norm_check = true then
        [Event.normCheck (some PMode.host), Event.normCheck (some PMode.device)] else [])
  else []

def timeBlockRotmg (env : Env) (arg : Arguments) : List Event :=
  if arg.timing = true then
    [Event.getStream HStatus.success, Event.setPointerMode PMode.device HStatus.success]
    ++ timedBlockTrace env (Event.libCall (some PMode.device) false HStatus.success)
         arg.cold_iters arg.iters 0
  else []

def rotmgStatic (arg : Arguments) : List Event :=
  [Event.allocHost [9], Event.initVector,
   Event.allocHost [9], Event.allocHost [9],
   Event.allocDevice [9],
   Event.transfer HipErr.success]

def rotmgTrace (env : Env) (arg : Arguments) : List Event :=
  rotmgStatic arg
  ++ corrBlockRotmg env arg ++ timeBlockRotmg env arg

theorem rotmg_run (arg : Arguments) (env : Env)
    (hg : ∀ k, env.gpu k = HStatus.success) (hh : ∀ k, env.hip k = HipErr.success) :
    runTest (testing_rotmg arg) env = (Except.ok HStatus.success, rotmgTrace env arg) := by
  unfold testing_rotmg runTest rotmgTrace rotmgStatic corrBlockRotmg timeBlockRotmg
  cases hu : arg.unit_check <;> cases hn : arg.norm_check <;> cases ht : arg.timing <;>
    simp [TestM.bind_apply, emits_apply, CHECK_HIP_ERROR_apply, CHECK_HIPBLAS_ERROR_apply,
      cmpCall_apply, initSt, hg, hh, timingTail_run]

def corrBlockTpsv (env : Env) (arg : Arguments) : List Event :=
  if (arg.unit_check || arg.norm_check) = true then
    [Event.libCall none false HStatus.success,
     Event.transfer HipErr.success,
     Event.normCheck none]
    ++ (if arg.unit_check = true then [Event.unitCheck none (env.cmp 0)] else [])
  else []

def timeBlockTpsv (env : Env) (arg : Arguments) : List Event :=
  if arg.timing = true then
    [Event.getStream HStatus.success, Event.setPointerMode PMode.host HStatus.success]
    ++ timedBlockTrace env (Event.libCall (some PMode.host) false HStatus.success)
         arg.cold_iters arg.iters 0
  else []

def tpsvStatic (arg : Arguments) : List Event :=
  [Event.allocHost [arg.N * arg.N, 1, arg.batch_count],
   Event.allocHost [arg.N * (arg.N + 1) / 2, 1, arg.batch_count],
   Event.allocHost [arg.N * arg.N, 1, arg.batch_count],
   Event.allocHost [arg.N, arg.incx, arg.batch_count],
   Event.allocHost [arg.N, arg.incx, arg.batch_count],
   Event.allocHost [arg.N, arg.incx, arg.batch_count],
   Event.allocHost [arg.N, arg.incx, arg.batch_count],
   Event.allocHost [arg.N, arg.incx, arg.batch_count],
   Event.allocDevice [arg.N * (arg.N + 1) / 2, 1, arg.batch_count],
   Event.allocDevice [arg.N, arg.incx, arg.batch_count],
   Event.memcheck HipErr.success, Event.memcheck HipErr.success,
   Event.initVector, Event.initVector, Event.hostCopy,
   Event.cpuReference arg.batch_count.toNat,
   Event.hostCopy, Event.hostCopy, Event.hostCopy,
   Event.transfer HipErr.success, Event.transfer HipErr.success]

def tpsvMainTrace (env : Env) (arg : Arguments) : List Event :=
  tpsvStatic arg
  ++ corrBlockTpsv env arg ++ timeBlockTpsv env arg

theorem tpsv_run (arg : Arguments) (env : Env)
    (hg : ∀ k, env.gpu k = HStatus.success) (hh : ∀ k, env.hip k = HipErr.success)
    (hq : ¬ tpsv_quick arg) :
    runTest (testing_tpsv_batched arg) env =
      (Except.ok HStatus.success, tpsvMainTrace env arg) := by
  unfold testing_tpsv_batched
  rw [if_neg hq]
  unfold tpsv_main runTest tpsvMainTrace tpsvStatic corrBlockTpsv timeBlockTpsv
  cases hu : arg.unit_check <;> cases hn : arg.norm_check <;> cases ht : arg.timing <;>
    simp [TestM.bind_apply, emits_apply, CHECK_HIP_ERROR_apply, CHECK_HIPBLAS_ERROR_apply,
      cmpCall_apply, initSt, hg, hh, timingTail_run]

/-! ### The tpsv matrix construction (numeric model)

`testing_tpsv_batched` builds, for each batch, a packed triangular
matrix from a random `N x N` matrix `hA` stored column-major
(`hA[i + j*N]` is row `i`, column `j`).  Buffers are modelled as
functions `Nat → ℚ` and the C++ loops as structural recursions. -/

/-- A single array store `buf[k] = v`. -/
def updFn (f : Nat → ℚ) (k : Nat) (v : ℚ) : Nat → ℚ := fun m => if m = k then v else f m

@[simp] theorem updFn_same (f : Nat → ℚ) (k : Nat) (v : ℚ) : updFn f k v k = v := by
  simp [updFn]

theorem updFn_other (f : Nat → ℚ) (k : Nat) (v : ℚ) {m : Nat} (h : m ≠ k) :
    updFn f k v m = f m := by
  simp [updFn, h]

/-- Modelled from the spec: the reference `cblas_gemm` call with
`HIPBLAS_OP_N`, `HIPBLAS_OP_T`, `alpha = 1`, `beta = 0` computes
`AAT = hA * hA^T` in the column-major layout. -/
def gemm_nt (N : Nat) (A : Nat → ℚ) : Nat → ℚ := fun m =>
  ∑ k ∈ Finset.range N, A (m % N + k * N) * A (m / N + k * N)

theorem idx_mod (N i j : Nat) (hi : i < N) : (i + j * N) % N = i := by
  rw [Nat.add_mul_mod_self_right, Nat.mod_eq_of_lt hi]

theorem idx_div (N i j : Nat) (hi : i < N) : (i + j * N) / N = j := by
  rw [Nat.add_mul_div_right _ _ (by omega : 0 < N), Nat.div_eq_of_lt hi]
  omega

theorem idx_inj {N i j i' j' : Nat} (hi : i < N) (hi' : i' < N)
    (h : i + j * N = i' + j' * N) : i = i' ∧ j = j' := by
  have h1 : (i + j * N) % N = (i' + j' * N) % N := by rw [h]
  rw [idx_mod N i j hi, idx_mod N i' j' hi'] at h1
  subst h1
  constructor
  · rfl
  · have hN : 0 < N := by omega
    have := Nat.eq_of_mul_eq_mul_right hN (by omega : j * N = j' * N)
    exact this

theorem gemm_nt_entry (N : Nat) (A : Nat → ℚ) {i j : Nat} (hi : i < N) :
    gemm_nt N A (i + j * N) =
      ∑ k ∈ Finset.range N, A (i + k * N) * A (j + k * N) := by
  unfold gemm_nt
  rw [idx_mod N i j hi, idx_div N i j hi]

/-- The inner copy loop `for(j) { hA[i+j*N] = AAT[i+j*N]; t += |AAT[i+j*N]|; }`
of the diagonal-dominance step, on the first `jn` column indices. -/
def ddRowAux (AAT : Nat → ℚ) (N i : Nat) : Nat → ((Nat → ℚ) × ℚ) → ((Nat → ℚ) × ℚ)
  | 0, st => st
  | jn + 1, st =>
      let st' := ddRowAux AAT N i jn st
      (updFn st'.1 (i + jn * N) (AAT (i + jn * N)), st'.2 + |AAT (i + jn * N)|)

/-- One iteration of the outer copy loop: process row `i` fully and
overwrite the diagonal entry with the accumulated absolute row sum. -/
def ddRow (AAT : Nat → ℚ) (N i : Nat) (hA : Nat → ℚ) : Nat → ℚ :=
  updFn (ddRowAux AAT N i N (hA, 0)).1 (i + i * N) (ddRowAux AAT N i N (hA, 0)).2

/-- The outer copy loop over the first `im` rows. -/
def ddLoopAux (AAT : Nat → ℚ) (N : Nat) : Nat → (Nat → ℚ) → (Nat → ℚ)
  | 0, hA => hA
  | im + 1, hA => ddRow AAT N im (ddLoopAux AAT N im hA)

/-- The complete `copy AAT into hA, make hA strictly diagonally
dominant` loop of `testing_tpsv_batched`. -/
def ddLoop (AAT : Nat → ℚ) (N : Nat) (hA : Nat → ℚ) : Nat → ℚ := ddLoopAux AAT N N hA

theorem ddRowAux_snd (AAT : Nat → ℚ) (N i : Nat) (jn : Nat) (st : (Nat → ℚ) × ℚ) :
    (ddRowAux AAT N i jn st).2 = st.2 + ∑ j ∈ Finset.range jn, |AAT (i + j * N)| := by
  induction jn with
  | zero => simp [ddRowAux]
  | succ jn ih =>
      simp [ddRowAux, ih, Finset.sum_range_succ]
      ring

theorem ddRowAux_fst_hit (AAT : Nat → ℚ) (N i : Nat) (hN : 0 < N) (jn : Nat)
    (st : (Nat → ℚ) × ℚ) {j : Nat} (hj : j < jn) :
    (ddRowAux AAT N i jn st).1 (i + j * N) = AAT (i + j * N) := by
  induction jn with
  | zero => omega
  | succ jn ih =>
      by_cases h : j = jn
      · subst h
        simp [ddRowAux]
      · have hj' : j < jn := by omega
        have hne : i + j * N ≠ i + jn * N := by
          intro hc
          have := Nat.eq_of_mul_eq_mul_right hN (by omega : j * N = jn * N)
          omega
        simp only [ddRowAux]
        rw [updFn_other _ _ _ hne]
        exact ih hj'

theorem ddRowAux_fst_miss (AAT : Nat → ℚ) (N i : Nat) (jn : Nat)
    (st : (Nat → ℚ) × ℚ) {m : Nat} (hm : ∀ j, j < jn → m ≠ i + j * N) :
    (ddRowAux AAT N i jn st).1 m = st.1 m := by
  induction jn with
  | zero => simp [ddRowAux]
  | succ jn ih =>
      simp only [ddRowAux]
      rw [updFn_other _ _ _ (hm jn (by omega))]
      exact ih (fun j hj => hm j (by omega))

theorem ddRow_diag (AAT : Nat → ℚ) (N i : Nat) (hA : Nat → ℚ) :
    ddRow AAT N i hA (i + i * N) = ∑ j ∈ Finset.range N, |AAT (i + j * N)| := by
  unfold ddRow
  rw [updFn_same, ddRowAux_snd]
  simp

theorem ddRow_off (AAT : Nat → ℚ) (N i : Nat) (hA : Nat → ℚ) {j : Nat}
    (hN : 0 < N) (hj : j < N) (hne : j ≠ i) :
    ddRow AAT N i hA (i + j * N) = AAT (i + j * N) := by
  unfold ddRow
  rw [updFn_other _ _ _ (by
    intro hc
    have := Nat.eq_of_mul_eq_mul_right hN (by omega : j * N = i * N)
    omega)]
  exact ddRowAux_fst_hit AAT N i hN N _ hj

theorem ddRow_other_row (AAT : Nat → ℚ) (N i : Nat) (hA : Nat → ℚ) {i' j' : Nat}
    (hi : i < N) (hi' : i' < N) (hne : i' ≠ i) :
    ddRow AAT N i hA (i' + j' * N) = hA (i' + j' * N) := by
  unfold ddRow
  rw [updFn_other _ _ _ (by
    intro hc
    exact hne (idx_inj hi' hi hc).1)]
  exact ddRowAux_fst_miss AAT N i N _ (by
    intro j hj hc
    exact hne (idx_inj hi' hi hc).1)

/-- The claim's description of the diagonal-dominance copy: copy `AAT`
into `hA` while each diagonal entry becomes the sum of absolute
values of its row of `AAT`. -/
def ddSpec (AAT : Nat → ℚ) (N i j : Nat) : ℚ :=
  if i = j then ∑ k ∈ Finset.range N, |AAT (i + k * N)| else AAT (i + j * N)

theorem ddLoopAux_ge (AAT : Nat → ℚ) (N : Nat) (im : Nat) (hA : Nat → ℚ) {i j : Nat}
    (hi : i < N) (him : im ≤ i) :
    ddLoopAux AAT N im hA (i + j * N) = hA (i + j * N) := by
  induction im with
  | zero => rfl
  | succ im ih =>
      simp only [ddLoopAux]
      rw [ddRow_other_row AAT N im _ (by omega) hi (by omega)]
      exact ih (by omega)

theorem ddLoopAux_entry (AAT : Nat → ℚ) (N : Nat) (im : Nat) (hA : Nat → ℚ) {i j : Nat}
    (hi : i < N) (hj : j < N) (him : i < im) (hmN : im ≤ N) :
    ddLoopAux AAT N im hA (i + j * N) = ddSpec AAT N i j := by
  induction im with
  | zero => omega
  | succ im ih =>
      simp only [ddLoopAux]
      by_cases h : i = im
      · subst h
        unfold ddSpec
        by_cases hij : i = j
        · subst hij
          rw [if_pos rfl]
          exact ddRow_diag AAT N i _
        · rw [if_neg hij]
          exact ddRow_off AAT N i _ (by omega) hj (fun hc => hij hc.symm)
      · rw [ddRow_other_row AAT N im _ (by omega) hi h]
        exact ih (by omega) (by omega)

theorem ddLoop_entry (AAT : Nat → ℚ) (N : Nat) (hA : Nat → ℚ) {i j : Nat}
    (hi : i < N) (hj : j < N) :
    ddLoop AAT N hA (i + j * N) = ddSpec AAT N i j :=
  ddLoopAux_entry AAT N N hA hi hj hi le_rfl

/-- The inner division loop `for(j = 0; j <= i; j++) hA[i+j*N] /= diag`
of the unit-diagonal step for a lower factor, on the first `jn`
column indices of row `i`. -/
def unitLowerRowAux (N i : Nat) (d : ℚ) : Nat → (Nat → ℚ) → (Nat → ℚ)
  | 0, hA => hA
  | jn + 1, hA =>
      updFn (unitLowerRowAux N i d jn hA) (i + jn * N)
        ((unitLowerRowAux N i d jn hA) (i + jn * N) / d)

/-- The outer loop of the unit-diagonal step for a lower factor, over
the first `im` rows: the divisor is read from the diagonal before the
row is divided. -/
def unitLowerAux (N : Nat) : Nat → (Nat → ℚ) → (Nat → ℚ)
  | 0, hA => hA
  | im + 1, hA =>
      unitLowerRowAux N im ((unitLowerAux N im hA) (im + im * N)) (im + 1)
        (unitLowerAux N im hA)

/-- The `if diag == unit` division of `testing_tpsv_batched` for
`uplo` lower. -/
def unitizeLower (N : Nat) (hA : Nat → ℚ) : Nat → ℚ := unitLowerAux N N hA

/-- The inner division loop `for(i = 0; i <= j; i++) hA[i+j*N] /= diag`
of the unit-diagonal step for an upper factor, on the first `im` row
indices of column `j`. -/
def unitUpperColAux (N j : Nat) (d : ℚ) : Nat → (Nat → ℚ) → (Nat → ℚ)
  | 0, hA => hA
  | im + 1, hA =>
      updFn (unitUpperColAux N j d im hA) (im + j * N)
        ((unitUpperColAux N j d im hA) (im + j * N) / d)

/-- The outer loop of the unit-diagonal step for an upper factor, over
the first `jm` columns. -/
def unitUpperAux (N : Nat) : Nat → (Nat → ℚ) → (Nat → ℚ)
  | 0, hA => hA
  | jm + 1, hA =>
      unitUpperColAux N jm ((unitUpperAux N jm hA) (jm + jm * N)) (jm + 1)
        (unitUpperAux N jm hA)

/-- The `if diag == unit` division of `testing_tpsv_batched` for
`uplo` upper. -/
def unitizeUpper (N : Nat) (hA : Nat → ℚ) : Nat → ℚ := unitUpperAux N N hA

theorem unitLowerRowAux_miss (N i : Nat) (d : ℚ) (jn : Nat) (hA : Nat → ℚ)
    {m : Nat} (hm : ∀ j, j < jn → m ≠ i + j * N) :
    unitLowerRowAux N i d jn hA m = hA m := by
  induction jn with
  | zero => rfl
  | succ jn ih =>
      simp only [unitLowerRowAux]
      rw [updFn_other _ _ _ (hm jn (by omega))]
      exact ih (fun j hj => hm j (by omega))

theorem unitLowerRowAux_hit (N i : Nat) (d : ℚ) (hN : 0 < N) (jn : Nat) (hA : Nat → ℚ)
    {j : Nat} (hj : j < jn) :
    unitLowerRowAux N i d jn hA (i + j * N) = hA (i + j * N) / d := by
  induction jn with
  | zero => omega
  | succ jn ih =>
      by_cases h : j = jn
      · subst h
        simp only [unitLowerRowAux, updFn_same]
        rw [unitLowerRowAux_miss N i d j hA (by
          intro j' hj' hc
          have := Nat.eq_of_mul_eq_mul_right hN (by omega : j * N = j' * N)
          omega)]
      · have hne : i + j * N ≠ i + jn * N := by
          intro hc
          have := Nat.eq_of_mul_eq_mul_right hN (by omega : j * N = jn * N)
          omega
        simp only [unitLowerRowAux]
        rw [updFn_other _ _ _ hne]
        exact ih (by omega)

theorem unitLowerAux_other (N : Nat) (im : Nat) (hA : Nat → ℚ) {i j : Nat}
    (hi : i < N) (him : im ≤ i) :
    unitLowerAux N im hA (i + j * N) = hA (i + j * N) := by
  induction im with
  | zero => rfl
  | succ im ih =>
      simp only [unitLowerAux]
      rw [unitLowerRowAux_miss N im _ (im + 1) _ (by
        intro j' hj' hc
        exact absurd (idx_inj hi (by omega) hc).1 (by omega))]
      exact ih (by omega)

theorem unitLowerAux_entry (N : Nat) (im : Nat) (hA : Nat → ℚ) {i j : Nat}
    (hi : i < N) (hj : j < N) (him : i < im) (hmN : im ≤ N) :
    unitLowerAux N im hA (i + j * N) =
      if j ≤ i then hA (i + j * N) / hA (i + i * N) else hA (i + j * N) := by
  induction im with
  | zero => omega
  | succ im ih =>
      by_cases h : i = im
      · subst h
        simp only [unitLowerAux]
        rw [unitLowerAux_other N i hA hi le_rfl]
        by_cases hji : j ≤ i
        · rw [if_pos hji, unitLowerRowAux_hit N i _ (by omega) (i + 1) _ (by omega)]
          rw [unitLowerAux_other N i hA hi le_rfl]
        · rw [if_neg hji]
          rw [unitLowerRowAux_miss N i _ (i + 1) _ (by
            intro j' hj' hc
            have := Nat.eq_of_mul_eq_mul_right (by omega : 0 < N)
              (by omega : j * N = j' * N)
            omega)]
          rw [unitLowerAux_other N i hA hi le_rfl]
      · simp only [unitLowerAux]
        rw [unitLowerRowAux_miss N im _ (im + 1) _ (by
          intro j' hj' hc
          exact absurd (idx_inj hi (by omega) hc).1 h)]
        exact ih (by omega) (by omega)

theorem unitizeLower_entry (N : Nat) (hA : Nat → ℚ) {i j : Nat}
    (hi : i < N) (hj : j < N) :
    unitizeLower N hA (i + j * N) =
      if j ≤ i then hA (i + j * N) / hA (i + i * N) else hA (i + j * N) :=
  unitLowerAux_entry N N hA hi hj hi le_rfl

theorem unitUpperColAux_miss (N j : Nat) (d : ℚ) (im : Nat) (hA : Nat → ℚ)
    {m : Nat} (hm : ∀ i, i < im → m ≠ i + j * N) :
    unitUpperColAux N j d im hA m = hA m := by
  induction im with
  | zero => rfl
  | succ im ih =>
      simp only [unitUpperColAux]
      rw [updFn_other _ _ _ (hm im (by omega))]
      exact ih (fun i hi => hm i (by omega))

theorem unitUpperColAux_hit (N j : Nat) (d : ℚ) (im : Nat) (hA : Nat → ℚ)
    {i : Nat} (hi : i < im) :
    unitUpperColAux N j d im hA (i + j * N) = hA (i + j * N) / d := by
  induction im with
  | zero => omega
  | succ im ih =>
      by_cases h : i = im
      · subst h
        simp only [unitUpperColAux, updFn_same]
        rw [unitUpperColAux_miss N j d i hA (by
          intro i' hi' hc
          omega)]
      · simp only [unitUpperColAux]
        rw [updFn_other _ _ _ (by omega : i + j * N ≠ im + j * N)]
        exact ih (by omega)

theorem unitUpperAux_other (N : Nat) (jm : Nat) (hA : Nat → ℚ) {i j : Nat}
    (hi : i < N) (hjm : jm ≤ N) (hj : jm ≤ j) :
    unitUpperAux N jm hA (i + j * N) = hA (i + j * N) := by
  induction jm with
  | zero => rfl
  | succ jm ih =>
      simp only [unitUpperAux]
      rw [unitUpperColAux_miss N jm _ (jm + 1) _ (by
        intro i' hi' hc
        exact absurd (idx_inj hi (by omega) hc).2 (by omega))]
      exact ih (by omega) (by omega)

theorem unitUpperAux_entry (N : Nat) (jm : Nat) (hA : Nat → ℚ) {i j : Nat}
    (hi : i < N) (hj : j < N) (hjm : j < jm) (hmN : jm ≤ N) :
    unitUpperAux N jm hA (i + j * N) =
      if i ≤ j then hA (i + j * N) / hA (j + j * N) else hA (i + j * N) := by
  induction jm with
  | zero => omega
  | succ jm ih =>
      by_cases h : j = jm
      · subst h
        simp only [unitUpperAux]
        rw [unitUpperAux_other N j hA (by omega) (by omega) le_rfl]
        by_cases hij : i ≤ j
        · rw [if_pos hij, unitUpperColAux_hit N j _ (j + 1) _ (by omega)]
          rw [unitUpperAux_other N j hA hi (by omega) le_rfl]
        · rw [if_neg hij]
          rw [unitUpperColAux_miss N j _ (j + 1) _ (by
            intro i' hi' hc
            omega)]
          rw [unitUpperAux_other N j hA hi (by omega) le_rfl]
      · simp only [unitUpperAux]
        rw [unitUpperColAux_miss N jm _ (jm + 1) _ (by
          intro i' hi' hc
          exact absurd (idx_inj hi (by omega) hc).2 h)]
        exact ih (by omega) (by omega)

theorem unitizeUpper_entry (N : Nat) (hA : Nat → ℚ) {i j : Nat}
    (hi : i < N) (hj : j < N) :
    unitizeUpper N hA (i + j * N) =
      if i ≤ j then hA (i + j * N) / hA (j + j * N) else hA (i + j * N) :=
  unitUpperAux_entry N N hA hi hj hj le_rfl

/-- Modelled from the spec: `regular_to_packed` of the test-support
library packs the upper (resp. lower) triangle of the column-major
`N x N` matrix into packed storage, walking the columns in order and,
within each column, the stored rows in order. -/
def regular_to_packed (upper : Bool) (A : Nat → ℚ) (N : Nat) : List ℚ :=
  if upper then
    (List.range N).flatMap (fun j => (List.range (j + 1)).map (fun i => A (i + j * N)))
  else
    (List.range N).flatMap (fun j => (List.range (N - j)).map (fun r => A ((j + r) + j * N)))

theorem length_flatMap_range (f : Nat → List ℚ) (n : Nat) :
    ((List.range n).flatMap f).length = ∑ c ∈ Finset.range n, (f c).length := by
  induction n with
  | zero => rfl
  | succ n ih =>
      rw [List.range_succ, List.flatMap_append, List.length_append, ih,
        Finset.sum_range_succ]
      simp

theorem flatMap_range_getElem (f : Nat → List ℚ) (n : Nat) {j i : Nat} (hj : j < n)
    (hi : i < (f j).length) :
    ((List.range n).flatMap f)[(∑ c ∈ Finset.range j, (f c).length) + i]? = (f j)[i]? := by
  induction n with
  | zero => omega
  | succ n ih =>
      rw [List.range_succ, List.flatMap_append]
      by_cases h : j = n
      · subst h
        rw [List.getElem?_append, if_neg (by rw [length_flatMap_range]; omega)]
        rw [length_flatMap_range]
        simp
      · have hjn : j < n := by omega
        have hlt : (∑ c ∈ Finset.range j, (f c).length) + i <
            ((List.range n).flatMap f).length := by
          rw [length_flatMap_range]
          calc (∑ c ∈ Finset.range j, (f c).length) + i
              < ∑ c ∈ Finset.range (j + 1), (f c).length := by
                rw [Finset.sum_range_succ]; omega
            _ ≤ ∑ c ∈ Finset.range n, (f c).length := by
                apply Finset.sum_le_sum_of_subset
                intro x hx
                simp only [Finset.mem_range] at hx ⊢
                omega
        rw [List.getElem?_append, if_pos hlt]
        exact ih hjn

theorem sum_range_succ_id (j : Nat) : ∑ c ∈ Finset.range j, (c + 1) = j * (j + 1) / 2 := by
  induction j with
  | zero => rfl
  | succ j ih =>
      rw [Finset.sum_range_succ, ih]
      have h2 : (j + 1) * (j + 1 + 1) = j * (j + 1) + 2 * (j + 1) := by ring
      omega

theorem regular_to_packed_upper_entry (A : Nat → ℚ) (N : Nat) {i j : Nat}
    (hij : i ≤ j) (hj : j < N) :
    (regular_to_packed true A N)[j * (j + 1) / 2 + i]? = some (A (i + j * N)) := by
  unfold regular_to_packed
  rw [if_pos rfl]
  have hlen : ∀ c, ((List.range (c + 1)).map (fun i => A (i + c * N))).length = c + 1 := by
    intro c; simp
  have hkey := flatMap_range_getElem
    (fun j => (List.range (j + 1)).map (fun i => A (i + j * N))) N hj
    (by rw [hlen]; omega : i < ((List.range (j + 1)).map (fun i => A (i + j * N))).length)
  simp only [hlen] at hkey
  rw [sum_range_succ_id] at hkey
  rw [hkey]
  simp [List.getElem?_map, List.getElem?_range (by omega : i < j + 1)]

theorem regular_to_packed_lower_entry (A : Nat → ℚ) (N : Nat) {i j : Nat}
    (hji : j ≤ i) (hi : i < N) :
    (regular_to_packed false A N)[(∑ c ∈ Finset.range j, (N - c)) + (i - j)]? =
      some (A (i + j * N)) := by
  unfold regular_to_packed
  rw [if_neg (by simp)]
  have hlen : ∀ c, ((List.range (N - c)).map (fun r => A ((c + r) + c * N))).length = N - c := by
    intro c; simp
  have hkey := flatMap_range_getElem
    (fun j => (List.range (N - j)).map (fun r => A ((j + r) + j * N))) N (by omega : j < N)
    (by rw [hlen]; omega :
      (i - j) < ((List.range (N - j)).map (fun r => A ((j + r) + j * N))).length)
  simp only [hlen] at hkey
  rw [hkey]
  rw [List.getElem?_map, List.getElem?_range (by omega : i - j < N - j)]
  simp
  congr 2
  omega

/-- Modelled from the spec: `char2hipblas_fill` of the test-support
library maps the `uplo` character to `HIPBLAS_FILL_MODE_UPPER`
exactly for the character U (either case). -/
def charIsUpper (c : Char) : Bool := c == 'U' || c == 'u'

/-- The strictly-diagonally-dominant symmetric matrix built from the
random input by the gemm and copy steps of `testing_tpsv_batched`. -/
def tpsv_DD (N : Nat) (hA : Nat → ℚ) : Nat → ℚ := ddLoop (gemm_nt N hA) N hA

/-- The triangular factor built per batch by `testing_tpsv_batched`:
Cholesky factorisation (the external reference `cblas_potrf`,
abstracted as the parameter `potrf`) of the diagonally dominant
matrix, divided by its diagonal when a unit-diagonal matrix is
requested (`diag` is U or u): by rows for a lower factor (`uplo` L
or l), by columns otherwise. -/
def tpsv_factor (uplo diagc : Char) (potrf : Char → Nat → (Nat → ℚ) → (Nat → ℚ))
    (N : Nat) (hA : Nat → ℚ) : Nat → ℚ :=
  if diagc = 'U' ∨ diagc = 'u' then
    (if uplo = 'L' ∨ uplo = 'l' then unitizeLower N (potrf uplo N (tpsv_DD N hA))
     else unitizeUpper N (potrf uplo N (tpsv_DD N hA)))
  else potrf uplo N (tpsv_DD N hA)

/-- The per-batch construction of `testing_tpsv_batched` (lines
96-151 of the source): the factor and its packed form.  The
`cblas_trmv` call between the factor construction and the packing
modifies only the right-hand side `hb`, not `hA`, so it does not
appear here. -/
def tpsv_construct (uplo diagc : Char) (potrf : Char → Nat → (Nat → ℚ) → (Nat → ℚ))
    (N : Nat) (hA : Nat → ℚ) : (Nat → ℚ) × List ℚ :=
  (tpsv_factor uplo diagc potrf N hA,
   regular_to_packed (charIsUpper uplo) (tpsv_factor uplo diagc potrf N hA) N)

theorem tpsv_DD_entry (N : Nat) (hA : Nat → ℚ) {i j : Nat} (hi : i < N) (hj : j < N) :
    tpsv_DD N hA (i + j * N) =
      if i = j then ∑ k ∈ Finset.range N, |gemm_nt N hA (i + k * N)|
      else gemm_nt N hA (i + j * N) :=
  ddLoop_entry (gemm_nt N hA) N hA hi hj

theorem tpsv_DD_symm (N : Nat) (hA : Nat → ℚ) {i j : Nat} (hi : i < N) (hj : j < N) :
    tpsv_DD N hA (i + j * N) = tpsv_DD N hA (j + i * N) := by
  rw [tpsv_DD_entry N hA hi hj, tpsv_DD_entry N hA hj hi]
  by_cases h : i = j
  · subst h; rw [if_pos rfl]
  · rw [if_neg h, if_neg (fun hc => h hc.symm)]
    rw [gemm_nt_entry N hA hi, gemm_nt_entry N hA hj]
    exact Finset.sum_congr rfl (fun k _ => mul_comm _ _)

theorem tpsv_DD_dominant (N : Nat) (hA : Nat → ℚ)
    (hrow : ∀ i, i < N → ∃ k, k < N ∧ hA (i + k * N) ≠ 0) {i : Nat} (hi : i < N) :
    ∑ j ∈ (Finset.range N).erase i, |tpsv_DD N hA (i + j * N)| < tpsv_DD N hA (i + i * N) := by
  have hdiag : tpsv_DD N hA (i + i * N) =
      ∑ k ∈ Finset.range N, |gemm_nt N hA (i + k * N)| := by
    rw [tpsv_DD_entry N hA hi hi, if_pos rfl]
  have hoff : ∀ j ∈ (Finset.range N).erase i,
      |tpsv_DD N hA (i + j * N)| = |gemm_nt N hA (i + j * N)| := by
    intro j hj
    simp only [Finset.mem_erase, Finset.mem_range] at hj
    rw [tpsv_DD_entry N hA hi hj.2, if_neg (fun hc => hj.1 hc.symm)]
  rw [hdiag, Finset.sum_congr rfl hoff]
  rw [← Finset.add_sum_erase _ _ (Finset.mem_range.mpr hi)]
  have hpos : 0 < |gemm_nt N hA (i + i * N)| := by
    rw [gemm_nt_entry N hA hi]
    obtain ⟨k, hk, hkne⟩ := hrow i hi
    have hsum : 0 < ∑ k ∈ Finset.range N, hA (i + k * N) * hA (i + k * N) := by
      apply Finset.sum_pos'
      · intro m _
        exact mul_self_nonneg _
      · exact ⟨k, Finset.mem_range.mpr hk, mul_self_pos.mpr hkne⟩
    rw [abs_of_pos hsum]
    exact hsum
  linarith [hpos]

theorem quadform_pos (N : Nat) (M : Nat → Nat → ℚ)
    (hsym : ∀ i j, i < N → j < N → M i j = M j i)
    (hdom : ∀ i, i < N → ∑ j ∈ (Finset.range N).erase i, |M i j| < M i i)
    (x : Nat → ℚ) (i₀ : Nat) (hi₀ : i₀ < N) (hx : x i₀ ≠ 0) :
    0 < ∑ i ∈ Finset.range N, ∑ j ∈ Finset.range N, x i * M i j * x j := by
  classical
  set r := Finset.range N with hr
  set T1 : ℚ := ∑ i ∈ r, ∑ j ∈ r.erase i, |M i j| * x i ^ 2 with hT1
  set T2 : ℚ := ∑ i ∈ r, ∑ j ∈ r.erase i, |M i j| * x j ^ 2 with hT2
  -- split off the diagonal
  have h1 : ∑ i ∈ r, ∑ j ∈ r, x i * M i j * x j =
      ∑ i ∈ r, (x i * M i i * x i) + ∑ i ∈ r, ∑ j ∈ r.erase i, x i * M i j * x j := by
    rw [← Finset.sum_add_distrib]
    refine Finset.sum_congr rfl (fun i hi => ?_)
    exact (Finset.add_sum_erase r (fun j => x i * M i j * x j) hi).symm
  -- termwise bound for the cross terms
  have hterm : ∀ i j : Nat, -(|M i j| * (x i ^ 2 + x j ^ 2) / 2) ≤ x i * M i j * x j := by
    intro i j
    have hab : |x i| * |x j| ≤ (x i ^ 2 + x j ^ 2) / 2 := by
      nlinarith [sq_nonneg (|x i| - |x j|), sq_abs (x i), sq_abs (x j)]
    have h2 : -|M i j * (x i * x j)| ≤ M i j * (x i * x j) := neg_abs_le _
    have h3 : |M i j * (x i * x j)| = |M i j| * |x i * x j| := abs_mul _ _
    have h4 : |x i * x j| = |x i| * |x j| := abs_mul _ _
    have h5 : |M i j| * |x i * x j| ≤ |M i j| * ((x i ^ 2 + x j ^ 2) / 2) := by
      rw [h4]
      exact mul_le_mul_of_nonneg_left hab (abs_nonneg _)
    have h6 : x i * M i j * x j = M i j * (x i * x j) := by ring
    rw [h6]
    calc -(|M i j| * (x i ^ 2 + x j ^ 2) / 2)
        = -(|M i j| * ((x i ^ 2 + x j ^ 2) / 2)) := by ring
      _ ≤ -(|M i j| * |x i * x j|) := by linarith
      _ = -|M i j * (x i * x j)| := by rw [h3]
      _ ≤ M i j * (x i * x j) := h2
  -- bound the full cross sum
  have h7 : -(∑ i ∈ r, ∑ j ∈ r.erase i, |M i j| * (x i ^ 2 + x j ^ 2) / 2) ≤
      ∑ i ∈ r, ∑ j ∈ r.erase i, x i * M i j * x j := by
    rw [← Finset.sum_neg_distrib]
    refine Finset.sum_le_sum (fun i _ => ?_)
    rw [← Finset.sum_neg_distrib]
    exact Finset.sum_le_sum (fun j _ => hterm i j)
  -- the cross absolute sum equals (T1 + T2)/2
  have h8 : ∑ i ∈ r, ∑ j ∈ r.erase i, |M i j| * (x i ^ 2 + x j ^ 2) / 2 =
      (T1 + T2) / 2 := by
    rw [hT1, hT2, ← Finset.sum_add_distrib, Finset.sum_div]
    refine Finset.sum_congr rfl (fun i _ => ?_)
    rw [← Finset.sum_add_distrib, Finset.sum_div]
    refine Finset.sum_congr rfl (fun j _ => ?_)
    ring
  -- symmetry: T2 = T1
  have h9 : T2 = T1 := by
    have e1 : T2 = (∑ i ∈ r, ∑ j ∈ r, |M i j| * x j ^ 2) -
        ∑ i ∈ r, |M i i| * x i ^ 2 := by
      rw [hT2, ← Finset.sum_sub_distrib]
      refine Finset.sum_congr rfl (fun i hi => ?_)
      rw [Finset.sum_erase_eq_sub hi]
    have e2 : T1 = (∑ i ∈ r, ∑ j ∈ r, |M i j| * x i ^ 2) -
        ∑ i ∈ r, |M i i| * x i ^ 2 := by
      rw [hT1, ← Finset.sum_sub_distrib]
      refine Finset.sum_congr rfl (fun i hi => ?_)
      rw [Finset.sum_erase_eq_sub hi]
    have e3 : ∑ i ∈ r, ∑ j ∈ r, |M i j| * x j ^ 2 =
        ∑ i ∈ r, ∑ j ∈ r, |M i j| * x i ^ 2 := by
      rw [Finset.sum_comm]
      refine Finset.sum_congr rfl (fun j hj => ?_)
      refine Finset.sum_congr rfl (fun i hi => ?_)
      rw [hsym i j (by rw [hr] at hi; exact Finset.mem_range.mp hi)
        (by rw [hr] at hj; exact Finset.mem_range.mp hj)]
    rw [e1, e2, e3]
  -- rewrite T1 through the row sums
  have h10 : T1 = ∑ i ∈ r, (∑ j ∈ r.erase i, |M i j|) * x i ^ 2 := by
    rw [hT1]
    refine Finset.sum_congr rfl (fun i _ => ?_)
    rw [Finset.sum_mul]
  -- the final positive quantity
  have h11 : 0 < ∑ i ∈ r, x i ^ 2 * (M i i - ∑ j ∈ r.erase i, |M i j|) := by
    refine Finset.sum_pos' (fun i hi => ?_) ⟨i₀, ?_, ?_⟩
    · refine mul_nonneg (sq_nonneg _) ?_
      have := hdom i (by rw [hr] at hi; exact Finset.mem_range.mp hi)
      linarith
    · rw [hr]; exact Finset.mem_range.mpr hi₀
    · refine mul_pos ?_ ?_
      · have hne : x i₀ ^ 2 ≠ 0 := pow_ne_zero 2 hx
        have hge : 0 ≤ x i₀ ^ 2 := sq_nonneg _
        exact lt_of_le_of_ne hge (Ne.symm hne)
      · have := hdom i₀ hi₀
        linarith
  have h12 : ∑ i ∈ r, x i ^ 2 * (M i i - ∑ j ∈ r.erase i, |M i j|) =
      ∑ i ∈ r, (x i * M i i * x i) - ∑ i ∈ r, (∑ j ∈ r.erase i, |M i j|) * x i ^ 2 := by
    rw [← Finset.sum_sub_distrib]
    refine Finset.sum_congr rfl (fun i _ => ?_)
    ring
  linarith

theorem tpsv_DD_posdef (N : Nat) (hA : Nat → ℚ)
    (hrow : ∀ i, i < N → ∃ k, k < N ∧ hA (i + k * N) ≠ 0)
    (x : Nat → ℚ) (i₀ : Nat) (hi₀ : i₀ < N) (hx : x i₀ ≠ 0) :
    0 < ∑ i ∈ Finset.range N, ∑ j ∈ Finset.range N,
      x i * tpsv_DD N hA (i + j * N) * x j :=
  quadform_pos N (fun i j => tpsv_DD N hA (i + j * N))
    (fun i j hi hj => tpsv_DD_symm N hA hi hj)
    (fun i hi => tpsv_DD_dominant N hA hrow hi)
    x i₀ hi₀ hx

/-! ### Concrete fixtures used by witnesses and counterexamples -/

/-- An environment in which every external call succeeds. -/
def okEnv : Env :=
  { gpu := fun _ => HStatus.success, hip := fun _ => HipErr.success,
    time := fun k => (k : ℚ), cmp := fun _ => true }

theorem okEnv_allSuccess : AllSuccess okEnv := ⟨fun _ => rfl, fun _ => rfl⟩

/-- A typical small argument record. -/
def baseArg : Arguments :=
  { M := 1, N := 1, incx := 1, incy := 1, lda := 1, ldb := 1, ldc := 1,
    batch_count := 1, cold_iters := 1, iters := 2, stride_scale := 1,
    alpha := 1, beta := 1, transA := 'N', transB := 'N', uplo := 'U', diag := 'N',
    fortran := false, unit_check := true, norm_check := true, timing := false }

/-! ### Claim theorems -/

/-- C2: for every test routine, when `N <= 0` or `batch_count <= 0`
the test function quick-returns with a defined success or
invalid-value status before allocating any host or device buffers,
leaving memory untouched: the produced traces contain no allocation,
transfer or initialisation events; `testing_axpy_batched` and
`testing_copy_strided_batched` call the library once with null data
pointers and return success (propagating a library failure if one
occurs), `testing_geam_batched` returns invalid-value or success
without calling the library at all, and `testing_tpsv_batched` calls
the library with null data pointers and returns its status.
`testing_rotmg` takes no size arguments, so the claim is vacuous for
it. -/
theorem C2_quick_return (arg : Arguments) (env : Env)
    (h : arg.N ≤ 0 ∨ arg.batch_count ≤ 0) :
    runTest (testing_axpy_batched arg) env =
      (if env.gpu 0 = HStatus.success then Except.ok HStatus.success
        else Except.error (Failure.hipblas (env.gpu 0)),
       [Event.libCall none true (env.gpu 0)]) ∧
    runTest (testing_copy_strided_batched arg) env =
      (if env.gpu 0 = HStatus.success then Except.ok HStatus.success
        else Except.error (Failure.hipblas (env.gpu 0)),
       [Event.libCall none true (env.gpu 0)]) ∧
    runTest (testing_geam_batched arg) env =
      (Except.ok (if geam_invalid arg then HStatus.invalidValue else HStatus.success),
       []) ∧
    runTest (testing_tpsv_batched arg) env =
      (Except.ok (env.gpu 0),
       [Event.libCall none true (env.gpu 0),
        Event.expectStatus (env.gpu 0)
          (if tpsv_invalid_size arg then HStatus.invalidValue else HStatus.success)]) := by
  refine ⟨axpy_quick_run arg env h, copy_quick_run arg env h, ?_, ?_⟩
  · by_cases hg : geam_invalid arg
    · rw [if_pos hg]
      exact geam_invalid_run arg env hg
    · rw [if_neg hg]
      have hb : arg.batch_count = 0 := by
        unfold geam_invalid at hg
        push_neg at hg
        omega
      exact geam_zero_run arg env hg hb
  · refine tpsv_quick_run arg env ?_
    unfold tpsv_quick tpsv_invalid_size
    omega

/-- Witness for C2 at `N = 0`, `batch_count = 1` under an all-success
environment. -/
theorem C2_quick_return_witness :
    runTest (testing_axpy_batched { baseArg with N := 0 }) okEnv =
      (Except.ok HStatus.success, [Event.libCall none true HStatus.success]) ∧
    runTest (testing_copy_strided_batched { baseArg with N := 0 }) okEnv =
      (Except.ok HStatus.success, [Event.libCall none true HStatus.success]) ∧
    runTest (testing_geam_batched { baseArg with N := 0 }) okEnv =
      (Except.ok HStatus.invalidValue, []) ∧
    runTest (testing_tpsv_batched { baseArg with N := 0 }) okEnv =
      (Except.ok HStatus.success,
       [Event.libCall none true HStatus.success,
        Event.expectStatus HStatus.success HStatus.success]) := by
  have h := C2_quick_return { baseArg with N := 0 } okEnv (Or.inl (by decide))
  refine ⟨?_, ?_, ?_, ?_⟩
  · rw [h.1]; rfl
  · rw [h.2.1]; rfl
  · rw [h.2.2.1]; rfl
  · rw [h.2.2.2]; rfl

/-- C3: in `testing_tpsv_batched`, for every argument record with
`N < 0`, `incx == 0` or `batch_count < 0` the test asserts (via
`EXPECT_HIPBLAS_STATUS`, recorded as the `expectStatus` event with
its expected value) that the library call returns
`HIPBLAS_STATUS_INVALID_VALUE`; for the degenerate-but-valid records
with `N == 0` or `batch_count == 0` it asserts
`HIPBLAS_STATUS_SUCCESS`; in both cases the function returns the
actual status produced by the library call (`env.gpu 0`). -/
theorem C3_tpsv_status_assertion (arg : Arguments) (env : Env) :
    (tpsv_invalid_size arg →
      runTest (testing_tpsv_batched arg) env =
        (Except.ok (env.gpu 0),
         [Event.libCall none true (env.gpu 0),
          Event.expectStatus (env.gpu 0) HStatus.invalidValue])) ∧
    (¬ tpsv_invalid_size arg → (arg.N = 0 ∨ arg.batch_count = 0) →
      runTest (testing_tpsv_batched arg) env =
        (Except.ok (env.gpu 0),
         [Event.libCall none true (env.gpu 0),
          Event.expectStatus (env.gpu 0) HStatus.success])) := by
  constructor
  · intro hinv
    rw [tpsv_quick_run arg env (Or.inl hinv), if_pos hinv]
  · intro hninv hdeg
    rw [tpsv_quick_run arg env (Or.inr (by omega)), if_neg hninv]

/-- Witness for C3: an invalid record (`N = -1`) and a
degenerate-but-valid record (`batch_count = 0`), against an
environment whose library call reports invalid-value resp. success. -/
theorem C3_tpsv_status_assertion_witness :
    runTest (testing_tpsv_batched { baseArg with N := -1 })
        { okEnv with gpu := fun _ => HStatus.invalidValue } =
      (Except.ok HStatus.invalidValue,
       [Event.libCall none true HStatus.invalidValue,
        Event.expectStatus HStatus.invalidValue HStatus.invalidValue]) ∧
    runTest (testing_tpsv_batched { baseArg with batch_count := 0 }) okEnv =
      (Except.ok HStatus.success,
       [Event.libCall none true HStatus.success,
        Event.expectStatus HStatus.success HStatus.success]) := by
  constructor
  · have h := (C3_tpsv_status_assertion { baseArg with N := -1 }
      { okEnv with gpu := fun _ => HStatus.invalidValue }).1 (Or.inl (by decide))
    exact h.trans (by rfl)
  · have h := (C3_tpsv_status_assertion { baseArg with batch_count := 0 } okEnv).2
      (by decide) (Or.inr rfl)
    exact h.trans (by rfl)

/-- C10: `testing_geam_batched` returns `HIPBLAS_STATUS_INVALID_VALUE`
without invoking the GPU routine (the trace is empty) whenever a
leading dimension is too small for the transpose-dependent shape —
`lda < (M if transA is non-transposed else N)`,
`ldb < (M if transB is non-transposed else N)` or `ldc < M` — and in
the `M <= 0`, `N <= 0` and `batch_count < 0` cases. -/
theorem C10_geam_guard (arg : Arguments) (env : Env)
    (h : arg.M ≤ 0 ∨ arg.N ≤ 0 ∨
      arg.lda < (if charIsOpN arg.transA then arg.M else arg.N) ∨
      arg.ldb < (if charIsOpN arg.transB then arg.M else arg.N) ∨
      arg.ldc < arg.M ∨ arg.batch_count < 0) :
    runTest (testing_geam_batched arg) env = (Except.ok HStatus.invalidValue, []) := by
  apply geam_invalid_run
  unfold geam_invalid geam_A_row geam_B_row
  exact h

/-- Witness for C10 at `lda = 0 < M = 1` with `transA` non-transposed. -/
theorem C10_geam_guard_witness :
    runTest (testing_geam_batched { baseArg with lda := 0 }) okEnv =
      (Except.ok HStatus.invalidValue, []) :=
  C10_geam_guard { baseArg with lda := 0 } okEnv
    (Or.inr (Or.inr (Or.inl (by decide))))

/-- C8: for every argument record that passes the initial
size/validity checks, each test function returns
`HIPBLAS_STATUS_SUCCESS` at the end when every external call
succeeds; the outcome of the unit-check and norm-check comparisons
never changes the returned status — the environment's comparison
oracle `env.cmp` is completely unconstrained in this statement. -/
theorem C8_returns_success (arg : Arguments) (env : Env) (hall : AllSuccess env) :
    (0 < arg.N → 0 < arg.batch_count →
      (runTest (testing_axpy_batched arg) env).1 = Except.ok HStatus.success) ∧
    (0 < arg.N → 0 < arg.batch_count →
      (runTest (testing_copy_strided_batched arg) env).1 = Except.ok HStatus.success) ∧
    ((runTest (testing_rotmg arg) env).1 = Except.ok HStatus.success) ∧
    (¬ geam_invalid arg →
      (runTest (testing_geam_batched arg) env).1 = Except.ok HStatus.success) ∧
    (¬ tpsv_quick arg →
      (runTest (testing_tpsv_batched arg) env).1 = Except.ok HStatus.success) := by
  obtain ⟨hg, hh⟩ := hall
  refine ⟨?_, ?_, ?_, ?_, ?_⟩
  · intro h1 h2
    rw [axpy_run arg env hg hh (by omega)]
  · intro h1 h2
    rw [copy_run arg env hg hh (by omega)]
  · rw [rotmg_run arg env hg hh]
  · intro hq
    by_cases hb : arg.batch_count = 0
    · rw [geam_zero_run arg env hq hb]
    · rw [geam_run arg env hg hh hq hb]
  · intro hq
    rw [tpsv_run arg env hg hh hq]

/-- Witness for C8 at a record passing every check, with an
environment whose comparison oracle reports failure everywhere
(`cmp = false`): the returned status is still success for all five
drivers. -/
theorem C8_returns_success_witness :
    ((runTest (testing_axpy_batched baseArg) { okEnv with cmp := fun _ => false }).1 =
      Except.ok HStatus.success) ∧
    ((runTest (testing_copy_strided_batched baseArg)
        { okEnv with cmp := fun _ => false }).1 = Except.ok HStatus.success) ∧
    ((runTest (testing_rotmg baseArg) { okEnv with cmp := fun _ => false }).1 =
      Except.ok HStatus.success) ∧
    ((runTest (testing_geam_batched baseArg) { okEnv with cmp := fun _ => false }).1 =
      Except.ok HStatus.success) ∧
    ((runTest (testing_tpsv_batched baseArg) { okEnv with cmp := fun _ => false }).1 =
      Except.ok HStatus.success) := by
  have h := C8_returns_success baseArg { okEnv with cmp := fun _ => false }
    ⟨fun _ => rfl, fun _ => rfl⟩
  exact ⟨h.1 (by decide) (by decide), h.2.1 (by decide) (by decide), h.2.2.1,
    h.2.2.2.1 (by decide), h.2.2.2.2 (by decide)⟩

/-- C6: whenever any external library call (GPU BLAS call, pointer
mode or stream call, or memory-transfer call) returns a non-success
status, that status is propagated out of the test function by the
checking macros and nothing executes after it: every failing call
event on a trace is its final event and the propagated `Failure` is
the run's result.  The only call not guarded by `CHECK_HIPBLAS_ERROR`
is the null-pointer invocation on the quick-return path of
`testing_tpsv_batched`, whose status is asserted by the
`EXPECT_HIPBLAS_STATUS` checking macro and returned directly. -/
theorem C6_error_propagation (arg : Arguments) (env : Env) :
    PropagationOK (runTest (testing_axpy_batched arg) env) ∧
    PropagationOK (runTest (testing_copy_strided_batched arg) env) ∧
    PropagationOK (runTest (testing_geam_batched arg) env) ∧
    PropagationOK (runTest (testing_rotmg arg) env) ∧
    (¬ tpsv_quick arg → PropagationOK (runTest (testing_tpsv_batched arg) env)) ∧
    (tpsv_quick arg →
      runTest (testing_tpsv_batched arg) env =
        (Except.ok (env.gpu 0),
         [Event.libCall none true (env.gpu 0),
          Event.expectStatus (env.gpu 0)
            (if tpsv_invalid_size arg then HStatus.invalidValue else HStatus.success)])) := by
  refine ⟨propagationOK_of_propagates (propagates_axpy arg) env,
    propagationOK_of_propagates (propagates_copy arg) env,
    propagationOK_of_propagates (propagates_geam arg) env,
    propagationOK_of_propagates (propagates_rotmg arg) env, ?_, ?_⟩
  · intro hq
    have heq : testing_tpsv_batched arg = tpsv_main arg := by
      unfold testing_tpsv_batched
      rw [if_neg hq]
    rw [heq]
    exact propagationOK_of_propagates (propagates_tpsv_main arg) env
  · exact tpsv_quick_run arg env

/-- Witness for C6: an environment whose HIP runtime calls all fail
with code 1.  The first checked call of `testing_axpy_batched` (the
first `memcheck`) fails, the trace ends right there and the failure
is the run's result. -/
theorem C6_error_propagation_witness :
    (runTest (testing_axpy_batched baseArg) { okEnv with hip := fun _ => HipErr.err 1 }).1 =
      Except.error (Failure.hip (HipErr.err 1)) := by
  have h := (C6_error_propagation baseArg { okEnv with hip := fun _ => HipErr.err 1 }).1
  exact (h
    [Event.allocHost [1, 1, 1], Event.allocHost [1, 1, 1], Event.allocHost [1, 1, 1],
     Event.allocHost [1, 1, 1], Event.allocHost [1, 1, 1],
     Event.allocDevice [1, 1, 1], Event.allocDevice [1, 1, 1], Event.allocDevice [1, 1, 1],
     Event.allocDevice [1]]
    (Event.memcheck (HipErr.err 1)) [] (Failure.hip (HipErr.err 1))
    (by decide) (by decide)).2

/-- C7: for every test function with timing enabled, the routine is
invoked `cold_iters + iters` times in one loop; a stream-synchronised
timestamp is taken immediately before iteration number `cold_iters`
and another after the loop, and the reported GPU time is their
difference, so the measured interval excludes exactly the first
`cold_iters` warm-up calls: the trace ends with `cold_iters` calls,
the first timestamp, `iters` calls, the second timestamp and the
`log_args` report of `time 1 - time 0`.  (The timestamp before
iteration `cold_iters` presupposes that the loop reaches it, hence
the hypothesis `1 ≤ iters`.) -/
theorem C7_timing_window (arg : Arguments) (env : Env) (hall : AllSuccess env)
    (htm : arg.timing = true) (hc : 0 ≤ arg.cold_iters) (hi : 1 ≤ arg.iters) :
    ((arg.N ≤ 0 ∨ arg.batch_count ≤ 0) = False →
      ∃ pre, (runTest (testing_axpy_batched arg) env).2 = pre
        ++ List.replicate arg.cold_iters.toNat
            (Event.libCall (some PMode.device) false HStatus.success)
        ++ [Event.timestamp 0]
        ++ List.replicate arg.iters.toNat
            (Event.libCall (some PMode.device) false HStatus.success)
        ++ [Event.timestamp 1, Event.logArgs (some (env.time 1 - env.time 0))]) ∧
    ((arg.N ≤ 0 ∨ arg.batch_count ≤ 0) = False →
      ∃ pre, (runTest (testing_copy_strided_batched arg) env).2 = pre
        ++ List.replicate arg.cold_iters.toNat
            (Event.libCall none false HStatus.success)
        ++ [Event.timestamp 0]
        ++ List.replicate arg.iters.toNat (Event.libCall none false HStatus.success)
        ++ [Event.timestamp 1, Event.logArgs (some (env.time 1 - env.time 0))]) ∧
    (¬ geam_invalid arg → arg.batch_count ≠ 0 →
      ∃ pre, (runTest (testing_geam_batched arg) env).2 = pre
        ++ List.replicate arg.cold_iters.toNat
            (Event.libCall (some PMode.device) false HStatus.success)
        ++ [Event.timestamp 0]
        ++ List.replicate arg.iters.toNat
            (Event.libCall (some PMode.device) false HStatus.success)
        ++ [Event.timestamp 1, Event.logArgs (some (env.time 1 - env.time 0))]) ∧
    (∃ pre, (runTest (testing_rotmg arg) env).2 = pre
        ++ List.replicate arg.cold_iters.toNat
            (Event.libCall (some PMode.device) false HStatus.success)
        ++ [Event.timestamp 0]
        ++ List.replicate arg.iters.toNat
            (Event.libCall (some PMode.device) false HStatus.success)
        ++ [Event.timestamp 1, Event.logArgs (some (env.time 1 - env.time 0))]) ∧
    (¬ tpsv_quick arg →
      ∃ pre, (runTest (testing_tpsv_batched arg) env).2 = pre
        ++ List.replicate arg.cold_iters.toNat
            (Event.libCall (some PMode.host) false HStatus.success)
        ++ [Event.timestamp 0]
        ++ List.replicate arg.iters.toNat
            (Event.libCall (some PMode.host) false HStatus.success)
        ++ [Event.timestamp 1, Event.logArgs (some (env.time 1 - env.time 0))]) := by
  obtain ⟨hg, hh⟩ := hall
  have hwin : (0 ≤ arg.cold_iters ∧ arg.cold_iters < arg.cold_iters + arg.iters) := by
    omega
  refine ⟨?_, ?_, ?_, ?_, ?_⟩
  · intro hq
    rw [axpy_run arg env hg hh (by simp [hq])]
    unfold axpyMainTrace timeBlockAxpy timedBlockTrace
    rw [htm, if_pos rfl, if_pos hwin]
    refine ⟨axpyStatic arg ++ corrBlockAxpy env arg ++
      [Event.getStream HStatus.success,
       Event.setPointerMode PMode.device HStatus.success], ?_⟩
    simp [List.append_assoc]
  · intro hq
    rw [copy_run arg env hg hh (by simp [hq])]
    unfold copyMainTrace timeBlockCopy timedBlockTrace
    rw [htm, if_pos rfl, if_pos hwin]
    refine ⟨copyStatic arg ++ corrBlockCopy env arg ++
      [Event.getStream HStatus.success], ?_⟩
    simp [List.append_assoc]
  · intro hq hb
    rw [geam_run arg env hg hh hq hb]
    unfold geamMainTrace timeBlockGeam timedBlockTrace
    rw [htm, if_pos rfl, if_pos hwin]
    refine ⟨geamStatic arg ++ corrBlockGeam env arg ++
      [Event.getStream HStatus.success,
       Event.setPointerMode PMode.device HStatus.success], ?_⟩
    simp [List.append_assoc]
  · rw [rotmg_run arg env hg hh]
    unfold rotmgTrace timeBlockRotmg timedBlockTrace
    rw [htm, if_pos rfl, if_pos hwin]
    refine ⟨rotmgStatic arg ++ corrBlockRotmg env arg ++
      [Event.getStream HStatus.success,
       Event.setPointerMode PMode.device HStatus.success], ?_⟩
    simp [List.append_assoc]
  · intro hq
    rw [tpsv_run arg env hg hh hq]
    unfold tpsvMainTrace timeBlockTpsv timedBlockTrace
    rw [htm, if_pos rfl, if_pos hwin]
    refine ⟨tpsvStatic arg ++ corrBlockTpsv env arg ++
      [Event.getStream HStatus.success,
       Event.setPointerMode PMode.host HStatus.success], ?_⟩
    simp [List.append_assoc]

/-- Witness for C7 at `cold_iters = 1`, `iters = 2` with timing
enabled. -/
theorem C7_timing_window_witness :
    ∃ pre, (runTest (testing_rotmg { baseArg with timing := true }) okEnv).2 = pre
      ++ List.replicate (1 : Int).toNat
          (Event.libCall (some PMode.device) false HStatus.success)
      ++ [Event.timestamp 0]
      ++ List.replicate (2 : Int).toNat
          (Event.libCall (some PMode.device) false HStatus.success)
      ++ [Event.timestamp 1, Event.logArgs (some (okEnv.time 1 - okEnv.time 0))] :=
  (C7_timing_window { baseArg with timing := true } okEnv okEnv_allSuccess rfl
    (by decide) (by decide)).2.2.2.1

/-- Classifier for buffer-allocation events. -/
def isAllocEv : Event → Bool
  | Event.allocHost _ => true
  | Event.allocDevice _ => true
  | _ => false

/-- C9: in `testing_copy_strided_batched`, for every non-degenerate
record (`N > 0`, `batch_count > 0`, nonnegative `stride_scale`), the
buffer sizes `sizeX = stridex * batch_count` and
`sizeY = stridey * batch_count` are forced to at least 1 when the
stride computation (`size_t(N) * |inc| * stride_scale`, truncated)
yields zero, so every host and device buffer allocation of the run
has positive size: the allocation events of the trace are exactly the
six buffers of the forced sizes. -/
theorem C9_copy_size_forcing (arg : Arguments) (env : Env) (hall : AllSuccess env)
    (hN : 0 < arg.N) (hb : 0 < arg.batch_count) (hs : 0 ≤ arg.stride_scale) :
    (copy_stride arg.N arg.incx arg.stride_scale * arg.batch_count = 0 →
      copy_size (copy_stride arg.N arg.incx arg.stride_scale) arg.batch_count = 1) ∧
    (copy_stride arg.N arg.incy arg.stride_scale * arg.batch_count = 0 →
      copy_size (copy_stride arg.N arg.incy arg.stride_scale) arg.batch_count = 1) ∧
    1 ≤ copy_size (copy_stride arg.N arg.incx arg.stride_scale) arg.batch_count ∧
    1 ≤ copy_size (copy_stride arg.N arg.incy arg.stride_scale) arg.batch_count ∧
    (runTest (testing_copy_strided_batched arg) env).2.filter isAllocEv =
      [Event.allocHost [copy_size (copy_stride arg.N arg.incx arg.stride_scale)
          arg.batch_count],
       Event.allocHost [copy_size (copy_stride arg.N arg.incy arg.stride_scale)
          arg.batch_count],
       Event.allocHost [copy_size (copy_stride arg.N arg.incx arg.stride_scale)
          arg.batch_count],
       Event.allocHost [copy_size (copy_stride arg.N arg.incy arg.stride_scale)
          arg.batch_count],
       Event.allocDevice [copy_size (copy_stride arg.N arg.incx arg.stride_scale)
          arg.batch_count],
       Event.allocDevice [copy_size (copy_stride arg.N arg.incy arg.stride_scale)
          arg.batch_count]] := by
  have hstride : ∀ inc : Int, 0 ≤ copy_stride arg.N inc arg.stride_scale := by
    intro inc
    unfold copy_stride
    rw [Rat.le_floor]
    push_cast
    refine mul_nonneg (mul_nonneg (by exact_mod_cast le_of_lt hN) ?_) hs
    unfold cAbs
    split
    · exact_mod_cast (by assumption : (0 : Int) ≤ inc)
    · rename_i hneg
      have h2 : (0 : Int) ≤ -inc := by omega
      exact_mod_cast h2
  have hsize : ∀ inc : Int, 1 ≤ copy_size (copy_stride arg.N inc arg.stride_scale)
      arg.batch_count := by
    intro inc
    unfold copy_size
    split
    · omega
    · rename_i hne
      have h0 : 0 ≤ copy_stride arg.N inc arg.stride_scale * arg.batch_count :=
        mul_nonneg (hstride inc) (by omega)
      omega
  refine ⟨fun h => by unfold copy_size; rw [if_pos h],
    fun h => by unfold copy_size; rw [if_pos h], hsize arg.incx, hsize arg.incy, ?_⟩
  rw [copy_run arg env hall.1 hall.2 (by omega)]
  unfold copyMainTrace copyStatic corrBlockCopy timeBlockCopy timedBlockTrace
  cases hu : arg.unit_check <;> cases hn : arg.norm_check <;> cases ht : arg.timing <;>
    split_ifs <;> simp [isAllocEv, List.filter_append, List.filter_replicate]

/-- The C9 fixture: `stride_scale = 0` collapses both strides to
zero. -/
def c9Arg : Arguments := { baseArg with stride_scale := 0 }

/-- Witness for C9 at `stride_scale = 0`: both computed sizes collapse
to zero and are forced to 1, and all six allocations have size 1. -/
theorem C9_copy_size_forcing_witness :
    copy_size (copy_stride c9Arg.N c9Arg.incx c9Arg.stride_scale) c9Arg.batch_count = 1 ∧
    (runTest (testing_copy_strided_batched c9Arg) okEnv).2.filter isAllocEv =
      [Event.allocHost [1], Event.allocHost [1], Event.allocHost [1], Event.allocHost [1],
       Event.allocDevice [1], Event.allocDevice [1]] := by
  have hx : copy_stride c9Arg.N c9Arg.incx c9Arg.stride_scale = 0 := by
    show copy_stride 1 1 0 = 0
    unfold copy_stride
    rw [mul_zero]
    rfl
  have hy : copy_stride c9Arg.N c9Arg.incy c9Arg.stride_scale = 0 := by
    show copy_stride 1 1 0 = 0
    unfold copy_stride
    rw [mul_zero]
    rfl
  have h := C9_copy_size_forcing c9Arg okEnv okEnv_allSuccess (by decide) (by decide)
    (show (0 : ℚ) ≤ 0 from le_refl 0)
  have h1 := h.1 (by rw [hx, zero_mul])
  have h2 := h.2.1 (by rw [hy, zero_mul])
  refine ⟨h1, ?_⟩
  rw [h.2.2.2.2, h1, h2]

/-- Classifier for invocations of the routine under test. -/
def isLibCallEv : Event → Bool
  | Event.libCall _ _ _ => true
  | _ => false

/-- Classifier for invocations under an explicitly selected pointer
mode. -/
def isModedLibCallEv : Event → Bool
  | Event.libCall (some _) _ _ => true
  | _ => false

/-- Counterexample to C1: with unit checking enabled and valid sizes,
`testing_copy_strided_batched` invokes the GPU routine exactly once
and never under an explicitly selected host- or device-pointer mode,
so the routine is not "invoked under both the host-pointer and the
device-pointer calling convention". -/
theorem C1_copy_single_invocation :
    (runTest (testing_copy_strided_batched baseArg) okEnv).2.countP isLibCallEv = 1 ∧
    (runTest (testing_copy_strided_batched baseArg) okEnv).2.countP isModedLibCallEv = 0 := by
  constructor <;> decide

/-- C1, amended: when unit or norm checking is enabled, the drivers
whose operation takes scalar parameters (`testing_axpy_batched`,
`testing_geam_batched`, `testing_rotmg`) invoke the GPU routine under
both the device- and the host-pointer calling convention and compare
each of the two results against the CPU reference within tolerance;
`testing_copy_strided_batched` and `testing_tpsv_batched` invoke the
GPU routine exactly once, without selecting a pointer mode, and
compare that single result against the reference. -/
theorem C1_pointer_mode_coverage (arg : Arguments) (env : Env) (hall : AllSuccess env)
    (hck : (arg.unit_check || arg.norm_check) = true) :
    (0 < arg.N → 0 < arg.batch_count →
      Event.libCall (some PMode.device) false HStatus.success ∈
        (runTest (testing_axpy_batched arg) env).2 ∧
      Event.libCall (some PMode.host) false HStatus.success ∈
        (runTest (testing_axpy_batched arg) env).2 ∧
      (arg.unit_check = true →
        (∃ b, Event.unitCheck (some PMode.host) b ∈
          (runTest (testing_axpy_batched arg) env).2) ∧
        (∃ b, Event.unitCheck (some PMode.device) b ∈
          (runTest (testing_axpy_batched arg) env).2)) ∧
      (arg.norm_check = true →
        Event.normCheck (some PMode.host) ∈ (runTest (testing_axpy_batched arg) env).2 ∧
        Event.normCheck (some PMode.device) ∈ (runTest (testing_axpy_batched arg) env).2)) ∧
    (¬ geam_invalid arg → arg.batch_count ≠ 0 →
      Event.libCall (some PMode.device) false HStatus.success ∈
        (runTest (testing_geam_batched arg) env).2 ∧
      Event.libCall (some PMode.host) false HStatus.success ∈
        (runTest (testing_geam_batched arg) env).2 ∧
      (arg.unit_check = true →
        (∃ b, Event.unitCheck (some PMode.host) b ∈
          (runTest (testing_geam_batched arg) env).2) ∧
        (∃ b, Event.unitCheck (some PMode.device) b ∈
          (runTest (testing_geam_batched arg) env).2)) ∧
      (arg.norm_check = true →
        Event.normCheck (some PMode.host) ∈ (runTest (testing_geam_batched arg) env).2 ∧
        Event.normCheck (some PMode.device) ∈ (runTest (testing_geam_batched arg) env).2)) ∧
    (Event.libCall (some PMode.device) false HStatus.success ∈
        (runTest (testing_rotmg arg) env).2 ∧
      Event.libCall (some PMode.host) false HStatus.success ∈
        (runTest (testing_rotmg arg) env).2 ∧
      (arg.unit_check = true →
        (∃ b, Event.unitCheck (some PMode.host) b ∈ (runTest (testing_rotmg arg) env).2) ∧
        (∃ b, Event.unitCheck (some PMode.device) b ∈
          (runTest (testing_rotmg arg) env).2)) ∧
      (arg.norm_check = true →
        Event.normCheck (some PMode.host) ∈ (runTest (testing_rotmg arg) env).2 ∧
        Event.normCheck (some PMode.device) ∈ (runTest (testing_rotmg arg) env).2)) ∧
    (0 < arg.N → 0 < arg.batch_count → arg.timing = false →
      (runTest (testing_copy_strided_batched arg) env).2.countP isLibCallEv = 1 ∧
      Event.libCall none false HStatus.success ∈
        (runTest (testing_copy_strided_batched arg) env).2 ∧
      (arg.unit_check = true →
        ∃ b, Event.unitCheck none b ∈ (runTest (testing_copy_strided_batched arg) env).2) ∧
      (arg.norm_check = true →
        Event.normCheck none ∈ (runTest (testing_copy_strided_batched arg) env).2)) ∧
    (¬ tpsv_quick arg → arg.timing = false →
      (runTest (testing_tpsv_batched arg) env).2.countP isLibCallEv = 1 ∧
      Event.libCall none false HStatus.success ∈
        (runTest (testing_tpsv_batched arg) env).2 ∧
      Event.normCheck none ∈ (runTest (testing_tpsv_batched arg) env).2 ∧
      (arg.unit_check = true →
        ∃ b, Event.unitCheck none b ∈ (runTest (testing_tpsv_batched arg) env).2)) := by
  obtain ⟨hg, hh⟩ := hall
  refine ⟨?_, ?_, ?_, ?_, ?_⟩
  · intro h1 h2
    rw [axpy_run arg env hg hh (by omega)]
    unfold axpyMainTrace axpyStatic corrBlockAxpy timeBlockAxpy
    cases hu : arg.unit_check <;> cases hn : arg.norm_check <;>
      simp_all [timedBlockTrace]
  · intro h1 h2
    rw [geam_run arg env hg hh h1 h2]
    unfold geamMainTrace geamStatic corrBlockGeam timeBlockGeam
    cases hu : arg.unit_check <;> cases hn : arg.norm_check <;>
      simp_all [timedBlockTrace]
  · rw [rotmg_run arg env hg hh]
    unfold rotmgTrace rotmgStatic corrBlockRotmg timeBlockRotmg
    cases hu : arg.unit_check <;> cases hn : arg.norm_check <;>
      simp_all [timedBlockTrace]
  · intro h1 h2 h3
    rw [copy_run arg env hg hh (by omega)]
    unfold copyMainTrace copyStatic corrBlockCopy timeBlockCopy
    cases hu : arg.unit_check <;> cases hn : arg.norm_check <;>
      simp_all [isLibCallEv, List.countP_cons, List.countP_append]
  · intro h1 h2
    rw [tpsv_run arg env hg hh h1]
    unfold tpsvMainTrace tpsvStatic corrBlockTpsv timeBlockTpsv
    cases hu : arg.unit_check <;> cases hn : arg.norm_check <;>
      simp_all [isLibCallEv, List.countP_cons, List.countP_append]

/-- Witness for the amended C1 at a record with unit and norm checks
enabled and valid sizes. -/
theorem C1_pointer_mode_coverage_witness :
    (Event.libCall (some PMode.device) false HStatus.success ∈
      (runTest (testing_axpy_batched baseArg) okEnv).2) ∧
    (Event.libCall (some PMode.host) false HStatus.success ∈
      (runTest (testing_axpy_batched baseArg) okEnv).2) ∧
    (runTest (testing_copy_strided_batched baseArg) okEnv).2.countP isLibCallEv = 1 ∧
    (runTest (testing_tpsv_batched baseArg) okEnv).2.countP isLibCallEv = 1 := by
  have h := C1_pointer_mode_coverage baseArg okEnv okEnv_allSuccess rfl
  have ha := h.1 (by decide) (by decide)
  have hc := h.2.2.2.1 (by decide) (by decide) rfl
  have ht := h.2.2.2.2 (by decide) rfl
  exact ⟨ha.1, ha.2.1, hc.1, ht.1⟩

/-- Counterexample to C4: in `testing_axpy_batched` the
device-pointer invocation comes FIRST and the host-pointer invocation
second, not "host-pointer mode, then device-pointer mode" as the
claimed fixed order states. -/
theorem C4_axpy_order_counterexample :
    (runTest (testing_axpy_batched baseArg) okEnv).2.filter isLibCallEv =
      [Event.libCall (some PMode.device) false HStatus.success,
       Event.libCall (some PMode.host) false HStatus.success] ∧
    [Event.libCall (some PMode.device) false HStatus.success,
       Event.libCall (some PMode.host) false HStatus.success] ≠
      [Event.libCall (some PMode.host) false HStatus.success,
       Event.libCall (some PMode.device) false HStatus.success] := by
  constructor <;> decide

/-- Classifier for the events that mark the claimed phases: routine
invocations, the CPU reference computation, the comparisons, and the
timing events. -/
def isKeyEv : Event → Bool
  | Event.libCall _ _ _ => true
  | Event.cpuReference _ => true
  | Event.unitCheck _ _ => true
  | Event.normCheck _ => true
  | Event.timestamp _ => true
  | Event.logArgs _ => true
  | _ => false

/-- The amended phase order of `testing_axpy_batched`: device-pointer
call, host-pointer call, CPU reference, comparisons, optional timing. -/
def axpyPhases (env : Env) (arg : Arguments) : List Event :=
  (if (arg.unit_check || arg.norm_check) = true then
    [Event.libCall (some PMode.device) false HStatus.success,
     Event.libCall (some PMode.host) false HStatus.success,
     Event.cpuReference arg.batch_count.toNat]
    ++ (if arg.unit_check = true then
        [Event.unitCheck (some PMode.host) (env.cmp 0),
         Event.unitCheck (some PMode.device) (env.cmp 1)] else [])
    ++ (if arg.norm_check = true then
        [Event.normCheck (some PMode.host), Event.normCheck (some PMode.device)] else [])
   else [])
  ++ (if arg.timing = true then
      timedBlockTrace env (Event.libCall (some PMode.device) false HStatus.success)
        arg.cold_iters arg.iters 0 else [])

/-- The amended phase order of `testing_geam_batched`: host-pointer
call, device-pointer call, CPU reference, comparisons, optional
timing. -/
def geamPhases (env : Env) (arg : Arguments) : List Event :=
  (if (arg.norm_check || arg.unit_check) = true then
    [Event.libCall (some PMode.host) false HStatus.success,
     Event.libCall (some PMode.device) false HStatus.success,
     Event.cpuReference arg.batch_count.toNat]
    ++ (if arg.unit_check = true then
        [Event.unitCheck (some PMode.host) (env.cmp 0),
         Event.unitCheck (some PMode.device) (env.cmp 1)] else [])
    ++ (if arg.norm_check = true then
        [Event.normCheck (some PMode.host), Event.normCheck (some PMode.device)] else [])
   else [])
  ++ (if arg.timing = true then
      timedBlockTrace env (Event.libCall (some PMode.device) false HStatus.success)
        arg.cold_iters arg.iters 0 else [])

/-- The amended phase order of `testing_rotmg`: host-pointer call,
device-pointer call, CPU reference, comparisons, optional timing. -/
def rotmgPhases (env : Env) (arg : Arguments) : List Event :=
  (if (arg.unit_check || arg.norm_check) = true then
    [Event.libCall (some PMode.host) false HStatus.success,
     Event.libCall (some PMode.device) false HStatus.success,
     Event.cpuReference 1]
    ++ (if arg.unit_check = true then
        [Event.unitCheck (some PMode.host) (env.cmp 0),
         Event.unitCheck (some PMode.device) (env.cmp 1)] else [])
    ++ (if arg.norm_check = true then
        [Event.normCheck (some PMode.host), Event.normCheck (some PMode.device)] else [])
   else [])
  ++ (if arg.timing = true then
      timedBlockTrace env (Event.libCall (some PMode.device) false HStatus.success)
        arg.cold_iters arg.iters 0 else [])

/-- The amended phase order of `testing_copy_strided_batched`: a
single invocation without pointer mode, CPU reference, comparisons of
the single result, optional timing. -/
def copyPhases (env : Env) (arg : Arguments) : List Event :=
  (if (arg.unit_check || arg.norm_check) = true then
    [Event.libCall none false HStatus.success,
     Event.cpuReference arg.batch_count.toNat]
    ++ (if arg.unit_check = true then [Event.unitCheck none (env.cmp 0)] else [])
    ++ (if arg.norm_check = true then [Event.normCheck none] else [])
   else [])
  ++ (if arg.timing = true then
      timedBlockTrace env (Event.libCall none false HStatus.success)
        arg.cold_iters arg.iters 0 else [])

/-- The amended phase order of `testing_tpsv_batched`: the CPU
reference solution is produced while building the inputs, then a
single invocation without pointer mode and the comparisons of the
single result, then optional timing under the host pointer mode. -/
def tpsvPhases (env : Env) (arg : Arguments) : List Event :=
  [Event.cpuReference arg.batch_count.toNat]
  ++ (if (arg.unit_check || arg.norm_check) = true then
    [Event.libCall none false HStatus.success, Event.normCheck none]
    ++ (if arg.unit_check = true then [Event.unitCheck none (env.cmp 0)] else [])
   else [])
  ++ (if arg.timing = true then
      timedBlockTrace env (Event.libCall (some PMode.host) false HStatus.success)
        arg.cold_iters arg.iters 0 else [])

set_option maxHeartbeats 2000000 in
/-- C4, amended: each driver follows the fixed phase order build
inputs, invocation(s) of the routine, CPU reference, comparison,
optional timing — with the routine-specific invocation pattern
(device-then-host for axpy, host-then-device for geam and rotmg, one
unmoded invocation for copy and tpsv, whose reference is computed
during input construction): filtering each trace to the phase events
yields exactly the corresponding phase list. -/
theorem C4_phase_order (arg : Arguments) (env : Env) (hall : AllSuccess env) :
    (0 < arg.N → 0 < arg.batch_count →
      (runTest (testing_axpy_batched arg) env).2.filter isKeyEv = axpyPhases env arg) ∧
    (¬ geam_invalid arg → arg.batch_count ≠ 0 →
      (runTest (testing_geam_batched arg) env).2.filter isKeyEv = geamPhases env arg) ∧
    ((runTest (testing_rotmg arg) env).2.filter isKeyEv = rotmgPhases env arg) ∧
    (0 < arg.N → 0 < arg.batch_count →
      (runTest (testing_copy_strided_batched arg) env).2.filter isKeyEv =
        copyPhases env arg) ∧
    (¬ tpsv_quick arg →
      (runTest (testing_tpsv_batched arg) env).2.filter isKeyEv = tpsvPhases env arg) := by
  obtain ⟨hg, hh⟩ := hall
  refine ⟨?_, ?_, ?_, ?_, ?_⟩
  · intro h1 h2
    rw [axpy_run arg env hg hh (by omega)]
    unfold axpyMainTrace axpyStatic corrBlockAxpy timeBlockAxpy axpyPhases timedBlockTrace
    cases hu : arg.unit_check <;> cases hn : arg.norm_check <;> cases ht : arg.timing <;>
      split_ifs <;>
      simp [isKeyEv, List.filter_append, List.filter_replicate]
  · intro h1 h2
    rw [geam_run arg env hg hh h1 h2]
    unfold geamMainTrace geamStatic corrBlockGeam timeBlockGeam geamPhases timedBlockTrace
    cases hu : arg.unit_check <;> cases hn : arg.norm_check <;> cases ht : arg.timing <;>
      split_ifs <;>
      simp [isKeyEv, List.filter_append, List.filter_replicate]
  · rw [rotmg_run arg env hg hh]
    unfold rotmgTrace rotmgStatic corrBlockRotmg timeBlockRotmg rotmgPhases timedBlockTrace
    cases hu : arg.unit_check <;> cases hn : arg.norm_check <;> cases ht : arg.timing <;>
      split_ifs <;>
      simp [isKeyEv, List.filter_append, List.filter_replicate]
  · intro h1 h2
    rw [copy_run arg env hg hh (by omega)]
    unfold copyMainTrace copyStatic corrBlockCopy timeBlockCopy copyPhases timedBlockTrace
    cases hu : arg.unit_check <;> cases hn : arg.norm_check <;> cases ht : arg.timing <;>
      split_ifs <;>
      simp [isKeyEv, List.filter_append, List.filter_replicate]
  · intro h1
    rw [tpsv_run arg env hg hh h1]
    unfold tpsvMainTrace tpsvStatic corrBlockTpsv timeBlockTpsv tpsvPhases timedBlockTrace
    cases hu : arg.unit_check <;> cases hn : arg.norm_check <;> cases ht : arg.timing <;>
      split_ifs <;>
      simp [isKeyEv, List.filter_append, List.filter_replicate]

/-- Witness for the amended C4 with all flags enabled. -/
theorem C4_phase_order_witness :
    (runTest (testing_axpy_batched { baseArg with timing := true }) okEnv).2.filter
        isKeyEv = axpyPhases okEnv { baseArg with timing := true } ∧
    (runTest (testing_tpsv_batched { baseArg with timing := true }) okEnv).2.filter
        isKeyEv = tpsvPhases okEnv { baseArg with timing := true } := by
  have h := C4_phase_order { baseArg with timing := true } okEnv okEnv_allSuccess
  exact ⟨h.1 (by decide) (by decide), h.2.2.2.2 (by decide)⟩

/-- C5: in `testing_tpsv_batched` the per-batch triangular input is
built by: (a) `AAT = hA * hA^T` via the reference gemm; (b) copying
`AAT` into `hA` while replacing each diagonal entry by the sum of
absolute values of its row; (c) this matrix is symmetric and — when
every row of the random input is nonzero — strictly diagonally
dominant and positive definite (its quadratic form is positive on
every nonzero vector); (d) the Cholesky factor is computed by the
external reference `potrf` (abstracted as a parameter) and, if `diag`
is U or u, each stored row (lower factor) or column (upper factor) is
divided by its diagonal entry; (e) the factor is finally packed into
packed storage, column by column, at the standard packed positions. -/
theorem C5_tpsv_construction (uplo diagc : Char)
    (potrf : Char → Nat → (Nat → ℚ) → (Nat → ℚ)) (N : Nat) (hA : Nat → ℚ) :
    (∀ i j, i < N → j < N → gemm_nt N hA (i + j * N) =
      ∑ k ∈ Finset.range N, hA (i + k * N) * hA (j + k * N)) ∧
    (∀ i j, i < N → j < N → tpsv_DD N hA (i + j * N) =
      (if i = j then ∑ k ∈ Finset.range N, |gemm_nt N hA (i + k * N)|
       else gemm_nt N hA (i + j * N))) ∧
    (∀ i j, i < N → j < N → tpsv_DD N hA (i + j * N) = tpsv_DD N hA (j + i * N)) ∧
    ((∀ i, i < N → ∃ k, k < N ∧ hA (i + k * N) ≠ 0) →
      (∀ i, i < N → ∑ j ∈ (Finset.range N).erase i, |tpsv_DD N hA (i + j * N)| <
        tpsv_DD N hA (i + i * N)) ∧
      (∀ (x : Nat → ℚ) (i₀ : Nat), i₀ < N → x i₀ ≠ 0 →
        0 < ∑ i ∈ Finset.range N, ∑ j ∈ Finset.range N,
          x i * tpsv_DD N hA (i + j * N) * x j)) ∧
    ((diagc = 'U' ∨ diagc = 'u') → (uplo = 'L' ∨ uplo = 'l') →
      ∀ i j, i < N → j < N →
        tpsv_factor uplo diagc potrf N hA (i + j * N) =
          (if j ≤ i then potrf uplo N (tpsv_DD N hA) (i + j * N) /
              potrf uplo N (tpsv_DD N hA) (i + i * N)
           else potrf uplo N (tpsv_DD N hA) (i + j * N))) ∧
    ((diagc = 'U' ∨ diagc = 'u') → ¬(uplo = 'L' ∨ uplo = 'l') →
      ∀ i j, i < N → j < N →
        tpsv_factor uplo diagc potrf N hA (i + j * N) =
          (if i ≤ j then potrf uplo N (tpsv_DD N hA) (i + j * N) /
              potrf uplo N (tpsv_DD N hA) (j + j * N)
           else potrf uplo N (tpsv_DD N hA) (i + j * N))) ∧
    (¬(diagc = 'U' ∨ diagc = 'u') →
      tpsv_factor uplo diagc potrf N hA = potrf uplo N (tpsv_DD N hA)) ∧
    ((tpsv_construct uplo diagc potrf N hA).2 =
      regular_to_packed (charIsUpper uplo) (tpsv_factor uplo diagc potrf N hA) N) ∧
    (charIsUpper uplo = true → ∀ i j, i ≤ j → j < N →
      (tpsv_construct uplo diagc potrf N hA).2[j * (j + 1) / 2 + i]? =
        some (tpsv_factor uplo diagc potrf N hA (i + j * N))) ∧
    (charIsUpper uplo = false → ∀ i j, j ≤ i → i < N →
      (tpsv_construct uplo diagc potrf N hA).2[(∑ c ∈ Finset.range j, (N - c)) + (i - j)]? =
        some (tpsv_factor uplo diagc potrf N hA (i + j * N))) := by
  refine ⟨fun i j hi _ => gemm_nt_entry N hA hi,
    fun i j hi hj => tpsv_DD_entry N hA hi hj,
    fun i j hi hj => tpsv_DD_symm N hA hi hj,
    fun hrow => ⟨fun i hi => tpsv_DD_dominant N hA hrow hi,
      fun x i₀ hi₀ hx => tpsv_DD_posdef N hA hrow x i₀ hi₀ hx⟩,
    ?_, ?_, ?_, rfl, ?_, ?_⟩
  · intro hd hl i j hi hj
    unfold tpsv_factor
    rw [if_pos hd, if_pos hl]
    exact unitizeLower_entry N _ hi hj
  · intro hd hl i j hi hj
    unfold tpsv_factor
    rw [if_pos hd, if_neg hl]
    exact unitizeUpper_entry N _ hi hj
  · intro hd
    unfold tpsv_factor
    rw [if_neg hd]
  · intro hup i j hij hj
    show (regular_to_packed (charIsUpper uplo) (tpsv_factor uplo diagc potrf N hA)
      N)[j * (j + 1) / 2 + i]? = _
    rw [hup]
    exact regular_to_packed_upper_entry _ N hij hj
  · intro hup i j hji hi
    show (regular_to_packed (charIsUpper uplo) (tpsv_factor uplo diagc potrf N hA)
      N)[(∑ c ∈ Finset.range j, (N - c)) + (i - j)]? = _
    rw [hup]
    exact regular_to_packed_lower_entry _ N hji hi

/-- Witness for C5 at `N = 2` with the all-ones input (every row
nonzero), the identity in place of the external `potrf`, a lower
unit-diagonal request, and the dominance, positivity, division and
packing conclusions instantiated. -/
theorem C5_tpsv_construction_witness :
    (∀ i, i < 2 → ∑ j ∈ (Finset.range 2).erase i,
        |tpsv_DD 2 (fun _ => (1 : ℚ)) (i + j * 2)| <
      tpsv_DD 2 (fun _ => (1 : ℚ)) (i + i * 2)) ∧
    (0 < ∑ i ∈ Finset.range 2, ∑ j ∈ Finset.range 2,
      (1 : ℚ) * tpsv_DD 2 (fun _ => (1 : ℚ)) (i + j * 2) * 1) ∧
    (tpsv_factor 'L' 'U' (fun _ _ M => M) 2 (fun _ => (1 : ℚ)) (0 + 1 * 2) =
      tpsv_DD 2 (fun _ => (1 : ℚ)) (0 + 1 * 2)) ∧
    ((tpsv_construct 'L' 'U' (fun _ _ M => M) 2 (fun _ => (1 : ℚ))).2[0]? =
      some (tpsv_factor 'L' 'U' (fun _ _ M => M) 2 (fun _ => (1 : ℚ)) (0 + 0 * 2))) := by
  have h := C5_tpsv_construction 'L' 'U' (fun _ _ M => M) 2 (fun _ => (1 : ℚ))
  have hrow : ∀ i, i < 2 → ∃ k, k < 2 ∧ (fun _ => (1 : ℚ)) (i + k * 2) ≠ 0 :=
    fun i _ => ⟨0, by omega, one_ne_zero⟩
  refine ⟨(h.2.2.2.1 hrow).1, ?_, ?_, ?_⟩
  · exact (h.2.2.2.1 hrow).2 (fun _ => 1) 0 (by omega) one_ne_zero
  · have := h.2.2.2.2.1 (Or.inl rfl) (Or.inl rfl) 0 1 (by omega) (by omega)
    rw [this, if_neg (by omega)]
  · have := h.2.2.2.2.2.2.2.2.2 (by rfl) 0 0 (le_refl 0) (by omega)
    simpa using this
